import Mathlib

/-!
Verification development for the `httpcache` package: a private HTTP
response cache implemented as an `http.RoundTripper`.  The definitions
below are a shallow embedding of the Go source (`httpcache.go`):
headers are association lists from names to value lists, the wall
clock and the Go stdlib parsers (`time.Parse` for RFC 1123 dates and
`time.ParseDuration`) are supplied as an explicit environment, and the
`RoundTrip` dispatch is a pure function that additionally returns the
trace of upstream calls and cache-store operations it performs.
-/

namespace Httpcache

/-! ## String utilities (Go `strings` package operations used by the source) -/

/-- Characters of the cutset for `strings.Trim(s, cutset)`, applied from the left. -/
def trimLeftChars (p : Char → Bool) : List Char → List Char
  | [] => []
  | c :: cs => if p c then trimLeftChars p cs else c :: cs

/-- Go `strings.Trim`: removes characters satisfying `p` from both ends. -/
def trimChars (p : Char → Bool) (s : String) : String :=
  ((trimLeftChars p (trimLeftChars p s.toList).reverse).reverse).asString

/-- `strings.Trim(s, " ")`: trim ASCII space (only) from both ends. -/
def trimSpacesGo (s : String) : String := trimChars (fun c => c = ' ') s

/-- `strings.Trim(s, ",")`: trim commas from both ends. -/
def trimCommasGo (s : String) : String := trimChars (fun c => c = ',') s

/-- Go `unicode.IsSpace` restricted to ASCII, as used by `strings.TrimSpace`. -/
def isSpaceGo (c : Char) : Bool :=
  c = ' ' || c = '\t' || c = '\n' || c = '\r' || c.toNat = 11 || c.toNat = 12

/-- Go `strings.TrimSpace`. -/
def trimSpaceFull (s : String) : String := trimChars isSpaceGo s

/-- Go `strings.Split` with a one-character separator, on character lists.
The result always has at least one field. -/
def splitOnChar (sep : Char) : List Char → List (List Char)
  | [] => [[]]
  | c :: cs =>
    match splitOnChar sep cs with
    | [] => [[c]]
    | r :: rs => if c = sep then [] :: r :: rs else (c :: r) :: rs

/-- Go `strings.Split(s, sep)` for a one-character separator. -/
def goSplit (s : String) (sep : Char) : List String :=
  (splitOnChar sep s.toList).map List.asString

/-! ## Canonical header keys (Go `net/http.CanonicalHeaderKey`) -/

/-- Valid header-field byte per Go `net/textproto` (RFC 7230 token characters).
Code points 39 and 96 are the apostrophe and the backquote. -/
def validHeaderFieldChar (c : Char) : Bool :=
  ('a' ≤ c && c ≤ 'z') || ('A' ≤ c && c ≤ 'Z') || ('0' ≤ c && c ≤ '9') ||
  c = '!' || c = '#' || c = '$' || c = '%' || c = '&' || c = '*' || c = '+' ||
  c = '-' || c = '.' || c = '^' || c = '_' || c = '|' || c = '~' ||
  c.toNat = 39 || c.toNat = 96

/-- The case-normalisation pass of `CanonicalHeaderKey`: uppercase the first
letter and every letter following a `-`, lowercase the rest. -/
def canonChars : List Char → Bool → List Char
  | [], _ => []
  | c :: cs, upper =>
    let c' := if upper then c.toUpper else c.toLower
    c' :: canonChars cs (c' = '-')

/-- Go `http.CanonicalHeaderKey`: if the string contains an invalid header
field byte it is returned unmodified, otherwise it is case-normalised. -/
def canonicalKey (s : String) : String :=
  if s.toList.all validHeaderFieldChar then (canonChars s.toList true).asString else s

/-! ## Headers (Go `http.Header`, a map from canonical keys to value lists) -/

/-- An HTTP header collection: association list from header name to values. -/
abbrev Header := List (String × List String)

/-- Raw map indexing `h[k]` (no canonicalisation); a missing key yields `[]`,
the zero value of a Go slice. -/
def hIndex (h : Header) (k : String) : List String :=
  match h.find? (fun p => p.1 = k) with
  | some p => p.2
  | none => []

/-- Raw map assignment `h[k] = vs`: replaces the entry, or appends one. -/
def hSetRaw (h : Header) (k : String) (vs : List String) : Header :=
  if h.any (fun p => p.1 = k) then
    h.map (fun p => if p.1 = k then (k, vs) else p)
  else
    h ++ [(k, vs)]

/-- Go `Header.Get`: canonicalise the key, return the first value or `""`. -/
def hGet (h : Header) (k : String) : String :=
  match (hIndex h (canonicalKey k)).head? with
  | some v => v
  | none => ""

/-- Go `Header.Set`: canonicalise the key and replace its values with `[v]`. -/
def hSet (h : Header) (k v : String) : Header :=
  hSetRaw h (canonicalKey k) [v]

/-- Go `Header.Del`: canonicalise the key and remove its entry. -/
def hDel (h : Header) (k : String) : Header :=
  h.filter (fun p => p.1 ≠ canonicalKey k)

/-- The key set of a header map (`for k := range h`). -/
def hKeys (h : Header) : List String := h.map (·.1)

/-! ## Cache-Control parsing (`parseCacheControl`) -/

/-- A directive map (Go `type cacheControl map[string]string`). -/
abbrev CacheControl := List (String × String)

/-- Directive lookup (`v, ok := cc[k]`). -/
def ccLookup (cc : CacheControl) (k : String) : Option String :=
  (cc.find? (fun p => p.1 = k)).map (·.2)

/-- Map assignment `cc[k] = v` (duplicate directives: last wins). -/
def ccInsert (cc : CacheControl) (k v : String) : CacheControl :=
  if cc.any (fun p => p.1 = k) then
    cc.map (fun p => if p.1 = k then (k, v) else p)
  else
    cc ++ [(k, v)]

/-- `parseCacheControl` from the source: split the `Cache-Control` header
value on `,`; trim spaces around each part and skip empty parts; a part
containing `=` is split on every `=`, the key is the first field trimmed of
spaces and the value is the second field trimmed of commas; a part without
`=` is inserted with the empty value. -/
def parseCacheControl (headers : Header) : CacheControl :=
  let ccHeader := hGet headers "Cache-Control"
  (goSplit ccHeader ',').foldl
    (fun cc part =>
      let part := trimSpacesGo part
      if part = "" then cc
      else if part.toList.contains '=' then
        let keyval := goSplit part '='
        ccInsert cc (trimSpacesGo (keyval.getD 0 "")) (trimCommasGo (keyval.getD 1 ""))
      else
        ccInsert cc part "")
    []

/-! ## Requests, responses, and the environment -/

/-- The relevant fields of a Go `http.Request`.  `rangeOptIn` models the
presence of the `CacheRangeContextKey` value on the request context. -/
structure Request where
  method : String
  url : String
  header : Header
  rangeOptIn : Bool
deriving DecidableEq, Repr

/-- The relevant fields of a Go `http.Response`; the body is its byte list. -/
structure Response where
  statusCode : Nat
  status : String
  header : Header
  body : List Nat
  contentLength : Int
deriving DecidableEq, Repr

/-- Environment abstracting the wall clock and the Go stdlib parsers.
`parseTime s` models `time.Parse(time.RFC1123, s)` as nanoseconds since an
arbitrary epoch (`none` on parse error); `parseDur v` models
`time.ParseDuration(v + "s")` in nanoseconds (`none` on parse error);
`now` is the current wall time, so that `clock.since(d) = now - d`. -/
structure Env where
  parseTime : String → Option Int
  parseDur : String → Option Int
  now : Int

/-- The three freshness verdicts (`stale`, `fresh`, `transparent`). -/
inductive Freshness
  | stale
  | fresh
  | transparent
deriving DecidableEq, Repr

/-- `Date(respHeaders)`: an absent `Date` header is `ErrNoDateHeader`; a
present one is handed to `time.Parse`. -/
def dateOf (env : Env) (respHeaders : Header) : Option Int :=
  let dateHeader := hGet respHeaders "date"
  if dateHeader = "" then none else env.parseTime dateHeader

/-! ## Freshness evaluation (`getFreshness`) -/

/-- The final `lifetime > currentAge` comparison of `getFreshness`, together
with the conditional-header convergence check guarding the `fresh` verdict. -/
def freshnessLifetimeCheck (respHeaders reqHeaders : Header)
    (lifetime currentAge : Int) : Freshness :=
  if lifetime > currentAge then
    let inm := hGet reqHeaders "if-none-match"
    let etag := hGet respHeaders "etag"
    let fe := inm = etag && inm ≠ ""
    let ims := hGet reqHeaders "if-modified-since"
    let lm := hGet respHeaders "last-modified"
    let fl := ims = lm && ims ≠ ""
    if (fe && fl) || (fe && (ims = "" || lm = "")) || (fl && (inm = "" || etag = "")) then
      .fresh
    else
      .stale
  else
    .stale

/-- `getFreshness` from the source: classify a cached response against a new
request as fresh / stale / transparent from the two `Cache-Control` maps,
the response `Date`/`Expires` headers and the request freshness directives. -/
def getFreshness (env : Env) (respHeaders reqHeaders : Header) : Freshness :=
  let respCacheControl := parseCacheControl respHeaders
  let reqCacheControl := parseCacheControl reqHeaders
  if (ccLookup reqCacheControl "no-cache").isSome then .transparent
  else if (ccLookup respCacheControl "no-cache").isSome then .stale
  else if (ccLookup reqCacheControl "only-if-cached").isSome then .fresh
  else
    match dateOf env respHeaders with
    | none => .stale
    | some date =>
      let currentAge := env.now - date
      let lifetime : Int :=
        match ccLookup respCacheControl "max-age" with
        | some maxAge => (env.parseDur maxAge).getD 0
        | none =>
          let expiresHeader := hGet respHeaders "Expires"
          if expiresHeader ≠ "" then
            match env.parseTime expiresHeader with
            | none => 0
            | some expires => expires - date
          else 0
      let lifetime : Int :=
        match ccLookup reqCacheControl "max-age" with
        | some maxAge => (env.parseDur maxAge).getD 0
        | none => lifetime
      let currentAge : Int :=
        match ccLookup reqCacheControl "min-fresh" with
        | some minfresh =>
          match env.parseDur minfresh with
          | some d => currentAge + d
          | none => currentAge
        | none => currentAge
      match ccLookup reqCacheControl "max-stale" with
      | some maxstale =>
        if maxstale = "" then .fresh
        else
          let currentAge :=
            match env.parseDur maxstale with
            | some d => currentAge - d
            | none => currentAge
          freshnessLifetimeCheck respHeaders reqHeaders lifetime currentAge
      | none => freshnessLifetimeCheck respHeaders reqHeaders lifetime currentAge

/-! ## `stale-if-error` (`canStaleOnError`) -/

/-- The final `lifetime >= 0` / `lifetime > currentAge` comparison of
`canStaleOnError`; `false` when the `Date` header is missing or unparseable. -/
def staleLifetimeCheck (env : Env) (respHeaders : Header) (lifetime : Int) : Bool :=
  if lifetime ≥ 0 then
    match dateOf env respHeaders with
    | none => false
    | some date => lifetime > env.now - date
  else false

/-- `canStaleOnError` from the source.  The response directive is examined
first and the request directive second, the request's parsed window
overwriting the response's; a valueless directive returns `true` at once and
an unparseable value returns `false` at once.  When neither directive is
present the window stays at its initial `-1` and the verdict is `false`. -/
def canStaleOnError (env : Env) (respHeaders reqHeaders : Header) : Bool :=
  let respCacheControl := parseCacheControl respHeaders
  let reqCacheControl := parseCacheControl reqHeaders
  match ccLookup respCacheControl "stale-if-error" with
  | some v =>
    if v = "" then true
    else
      match env.parseDur v with
      | none => false
      | some respLifetime =>
        match ccLookup reqCacheControl "stale-if-error" with
        | some w =>
          if w = "" then true
          else
            match env.parseDur w with
            | none => false
            | some reqLifetime => staleLifetimeCheck env respHeaders reqLifetime
        | none => staleLifetimeCheck env respHeaders respLifetime
  | none =>
    match ccLookup reqCacheControl "stale-if-error" with
    | some w =>
      if w = "" then true
      else
        match env.parseDur w with
        | none => false
        | some reqLifetime => staleLifetimeCheck env respHeaders reqLifetime
    | none => false

/-! ## Storability (`canStore`), header surgery, Vary and keys -/

/-- `canStore` from the source: refuse when either `Cache-Control` declares
`no-store` or when the response carries neither `ETag` nor `Last-Modified`. -/
def canStore (reqCacheControl respCacheControl : CacheControl) (resp : Response) : Bool :=
  if (ccLookup respCacheControl "no-store").isSome then false
  else if (ccLookup reqCacheControl "no-store").isSome then false
  else if hGet resp.header "etag" = "" && hGet resp.header "last-modified" = "" then false
  else true

/-- The eight always-hop-by-hop header names of `getEndToEndHeaders`. -/
def fixedHopByHopHeaders : List String :=
  ["Connection", "Keep-Alive", "Proxy-Authenticate", "Proxy-Authorization",
   "Te", "Trailer", "Transfer-Encoding", "Upgrade"]

/-- The hop-by-hop name set of `getEndToEndHeaders`: the eight fixed names
plus, for every comma-separated part of the `Connection` header value that is
nonempty after space-trimming, the canonicalisation of the *untrimmed* part. -/
def hopByHopHeaders (respHeaders : Header) : List String :=
  fixedHopByHopHeaders ++
    (goSplit (hGet respHeaders "connection") ',').filterMap
      (fun extra => if trimSpacesGo extra ≠ "" then some (canonicalKey extra) else none)

/-- `getEndToEndHeaders` from the source: the response header keys that are
not in the hop-by-hop set. -/
def getEndToEndHeaders (respHeaders : Header) : List String :=
  (hKeys respHeaders).filter (fun k => ¬ (hopByHopHeaders respHeaders).contains k)

/-- The 304 header-merge loop of `Transport.RoundTrip` (lines 298-304): each
end-to-end header of the 304 response overwrites the same-named entry of the
cached headers, except that `Content-Length` is skipped when
`staleclient == 0` (i.e. when the revalidator injected the validators). -/
def merge304Headers (cachedHeader respHeader : Header) (staleclient : Int) : Header :=
  (getEndToEndHeaders respHeader).foldl
    (fun h header =>
      if staleclient = 0 && header = "Content-Length" then h
      else hSetRaw h header (hIndex respHeader header))
    cachedHeader

/-- `headerAllCommaSepValues`: all comma-separated values (whitespace
trimmed) across every occurrence of the named header. -/
def headerAllCommaSepValues (headers : Header) (name : String) : List String :=
  (hIndex headers (canonicalKey name)).flatMap
    (fun val => (goSplit val ',').map trimSpaceFull)

/-- `varyMatches`: every header named by the cached response's `Vary` tokens
must have the same value on the new request as the recorded
`X-Varied-<name>` bookkeeping header. -/
def varyMatches (cachedResp : Response) (req : Request) : Bool :=
  (headerAllCommaSepValues cachedResp.header "vary").all
    (fun header =>
      let header := canonicalKey header
      !(header ≠ "" && hGet req.header header ≠ hGet cachedResp.header ("X-Varied-" ++ header)))

/-- `CacheKey` from the source: the URL for `GET`, otherwise
`method ++ " " ++ URL`; when the range opt-in context value is present the
deferred closure appends `"-" ++ req.Header.Get("Range")`. -/
def cacheKeyOf (req : Request) : String :=
  let base := if req.method = "GET" then req.url else req.method ++ " " ++ req.url
  if req.rangeOptIn then base ++ "-" ++ hGet req.header "Range" else base

/-- The `NotModifiedDelHeaders` list stripped from 304 responses. -/
def notModifiedDelHeaders : List String :=
  ["Content-Length", "Content-Type", "Last-Modified", "Status"]

/-- Delete each named header in turn (`for _, h := range ... { Header.Del(h) }`). -/
def delHeaders (h : Header) (names : List String) : Header :=
  names.foldl (fun h n => hDel h n) h

/-- The validator-injection step of `Transport.RoundTrip` (lines 270-291) on
the pure request value: set `if-none-match` from the entry's `ETag` and
`if-modified-since` from its `Last-Modified` when present.  Returns the
request actually sent upstream together with the resulting `staleclient`
flag (`0` when at least one validator was injected, `1` otherwise). -/
def injectValidators (req : Request) (cached : Response) : Request × Int :=
  let etag := hGet cached.header "etag"
  let lastModified := hGet cached.header "last-modified"
  if etag ≠ "" then
    let r2 := { req with header := hSet req.header "if-none-match" etag }
    if lastModified ≠ "" then
      ({ r2 with header := hSet r2.header "if-modified-since" lastModified }, 0)
    else (r2, 0)
  else if lastModified ≠ "" then
    ({ req with header := hSet req.header "if-modified-since" lastModified }, 0)
  else (req, 1)

/-- `newGatewayTimeoutResponse`: `http.ReadResponse` applied to the literal
`"HTTP/1.1 504 Gateway Timeout\r\n\r\n"` yields status code 504, status text
`"504 Gateway Timeout"`, no headers, an empty body and unknown length. -/
def gatewayTimeoutResponse : Response :=
  { statusCode := 504,
    status := "504 Gateway Timeout",
    header := [],
    body := [],
    contentLength := -1 }

/-! ## Diagnostic annotation (the `defer` of `Transport.RoundTrip`) -/

/-- `ProxyFromCacheToString` (a missing key yields the Go zero value `""`). -/
def proxyFromCacheToString (n : Nat) : String :=
  if n = 0 then "miss" else if n = 1 then "hit" else ""

/-- `ProxyCachedToString`. -/
def proxyCachedToString (n : Nat) : String :=
  if n = 0 then "no-cache" else if n = 1 then "cached" else ""

/-- `FreshnessToString`. -/
def freshnessToString : Freshness → String
  | .stale => "stale"
  | .fresh => "fresh"
  | .transparent => "transparent"

/-- `ProxyWriteCacheToString`. -/
def proxyWriteCacheToString (n : Nat) : String :=
  if n = 0 then "no-store" else if n = 1 then "store" else ""

/-- `ProxyStaleClientToString`. -/
def proxyStaleClientToString (n : Int) : String :=
  if n = -1 then "use-none"
  else if n = 0 then "use-cache-header"
  else if n = 1 then "use-client-header"
  else ""

/-- The comma-separated diagnostic quintuple written to `X-Proxy-Cache`. -/
def cacheStatusString (xfromcache xproxycached : Nat) (freshness : Freshness)
    (xproxywrite : Nat) (staleclient : Int) : String :=
  proxyFromCacheToString xfromcache ++ ", " ++
  proxyCachedToString xproxycached ++ ", " ++
  freshnessToString freshness ++ ", " ++
  proxyWriteCacheToString xproxywrite ++ ", " ++
  proxyStaleClientToString staleclient

/-- The deferred annotation of `Transport.RoundTrip`: when
`MarkCachedResponses` is set and a response is returned, set `X-Proxy-Cache`
to the quintuple, with `xfromcache = 1` exactly when the returned response is
the cached object. -/
def annotate (mark : Bool) (respIsCached : Bool) (xproxycached : Nat)
    (freshness : Freshness) (xproxywrite : Nat) (staleclient : Int)
    (resp : Response) : Response :=
  if mark then
    let xfromcache := if respIsCached then 1 else 0
    { resp with
      header := hSet resp.header "X-Proxy-Cache"
        (cacheStatusString xfromcache xproxycached freshness xproxywrite staleclient) }
  else resp

/-! ## The dispatch (`Transport.RoundTrip`) as a pure trace-producing function -/

/-- An operation performed on the cache store during a dispatch.  A
`deferredSet` is the write scheduled by the `cachingReadCloser` wrapper for
`GET` responses: it is committed only when the caller drains the body. -/
inductive CacheOp
  | del (key : String)
  | set (key : String) (resp : Response)
  | deferredSet (key : String) (resp : Response)
deriving DecidableEq, Repr

/-- The collaborators of a `Transport`: the upstream round-tripper (`none`
models a transport error), the cache lookup (`Cache.Get` composed with
deserialization; `none` models both a miss and a malformed entry), the
`MarkCachedResponses` flag and the optional `CanCache` predicate. -/
structure TransportModel where
  upstream : Request → Option Response
  lookup : String → Option Response
  markCachedResponses : Bool
  canCache : Option (Request → Option Response → Bool)

/-- The observable outcome of one dispatch: the returned response (`none`
when an error is surfaced), the requests sent upstream, and the cache-store
operations in order. -/
structure RTResult where
  result : Option Response
  upstreamCalls : List Request
  ops : List CacheOp
deriving DecidableEq, Repr

/-- The header/body strip applied to a final 304 when the caller supplied
its own validators (lines 345-352), and likewise to a fresh cache hit
(lines 259-266): empty the body, delete the `NotModifiedDelHeaders` names,
zero the content length. -/
def strip304 (resp : Response) : Response :=
  { resp with body := [], header := delHeaders resp.header notModifiedDelHeaders,
              contentLength := 0 }

/-- The `X-Varied-*` bookkeeping loop (lines 355-362): for each `Vary` token
of the response, record the request's value of that header. -/
def addVariedHeaders (reqF : Request) (resp : Response) : Response :=
  (headerAllCommaSepValues resp.header "vary").foldl
    (fun r varyKey =>
      let varyKey := canonicalKey varyKey
      let reqValue := hGet reqF.header varyKey
      if reqValue ≠ "" then
        { r with header := hSet r.header ("X-Varied-" ++ varyKey) reqValue }
      else r)
    resp

/-- Lines 344-393 of `Transport.RoundTrip`: strip a final 304 when the
caller supplied its own validators, then run the storability gate, record
the `X-Varied-*` bookkeeping headers, and either store the response (a
deferred body-capture write for `GET`, an immediate write otherwise), skip
storing when the response *is* the cached object, or delete the entry.
`reqF` is the value of the `req` variable at this point (the validator
clone when one was made).  The deferred write stores the annotated response
because the `defer` runs before the caller can drain the body. -/
def finishCore (mark : Bool) (reqF : Request) (cacheKey : String)
    (cacheable : Bool) (respIsCached : Bool) (resp : Response)
    (freshness : Freshness) (staleclient : Int) (xproxycached : Nat) :
    Response × List CacheOp :=
  let resp := if staleclient = 1 && resp.statusCode = 304 then strip304 resp else resp
  if cacheable && canStore (parseCacheControl reqF.header) (parseCacheControl resp.header) resp then
    let resp := addVariedHeaders reqF resp
    if staleclient = 1 && resp.statusCode = 304 then
      (annotate mark respIsCached xproxycached freshness 0 staleclient resp, [])
    else if ¬ respIsCached then
      let op :=
        if reqF.method = "GET" then
          CacheOp.deferredSet cacheKey
            (annotate mark respIsCached xproxycached freshness 1 staleclient resp)
        else CacheOp.set cacheKey resp
      (annotate mark respIsCached xproxycached freshness 1 staleclient resp, [op])
    else
      (annotate mark respIsCached xproxycached freshness 0 staleclient resp, [])
  else
    (annotate mark respIsCached 0 freshness 0 staleclient resp, [CacheOp.del cacheKey])

/-- Assemble the outcome of `finishCore` with the upstream-call record and
the cache operations performed earlier in the dispatch. -/
def finishDispatch (mark : Bool) (reqF : Request) (cacheKey : String)
    (cacheable : Bool) (respIsCached : Bool) (resp : Response)
    (freshness : Freshness) (staleclient : Int) (xproxycached : Nat)
    (calls : List Request) (opsSoFar : List CacheOp) : RTResult :=
  let pr := finishCore mark reqF cacheKey cacheable respIsCached resp freshness staleclient
    xproxycached
  { result := some pr.1, upstreamCalls := calls, ops := opsSoFar ++ pr.2 }

/-- Lines 295-327 of `Transport.RoundTrip` (reached with a usable cached
entry): call upstream with the (possibly validator-carrying) request `req2`
and reconcile: a 304 on GET/HEAD merges end-to-end headers into the entry
and routes the entry onwards; an error or a 5xx with `stale-if-error`
applicable returns the entry; otherwise a non-200 deletes the entry and an
error is surfaced. -/
def afterUpstream (env : Env) (t : TransportModel) (req2 : Request)
    (cacheKey : String) (cached : Response) (freshness : Freshness)
    (staleclient : Int) : RTResult :=
  match t.upstream req2 with
  | some resp =>
    if (req2.method = "GET" || req2.method = "HEAD") && resp.statusCode = 304 then
      let mergedHeader := merge304Headers cached.header resp.header staleclient
      let c :=
        if staleclient = 1 then
          { cached with header := mergedHeader, statusCode := 304, status := "Not Modified" }
        else { cached with header := mergedHeader }
      finishDispatch t.markCachedResponses req2 cacheKey true true c freshness staleclient 1 [req2] []
    else if resp.statusCode ≥ 500 && (req2.method = "GET" || req2.method = "HEAD")
        && canStaleOnError env cached.header req2.header then
      { result := some (annotate t.markCachedResponses true 1 freshness 0 staleclient cached),
        upstreamCalls := [req2],
        ops := [] }
    else if resp.statusCode ≠ 200 then
      finishDispatch t.markCachedResponses req2 cacheKey true false resp freshness staleclient 0
        [req2] [CacheOp.del cacheKey]
    else
      finishDispatch t.markCachedResponses req2 cacheKey true false resp freshness staleclient 1
        [req2] []
  | none =>
    if (req2.method = "GET" || req2.method = "HEAD")
        && canStaleOnError env cached.header req2.header then
      { result := some (annotate t.markCachedResponses true 1 freshness 0 staleclient cached),
        upstreamCalls := [req2],
        ops := [] }
    else
      { result := none, upstreamCalls := [req2], ops := [CacheOp.del cacheKey] }

/-- The `cacheable` computation of `Transport.RoundTrip` line 234. -/
def isCacheableBase (req : Request) : Bool :=
  (req.method = "GET" || req.method = "HEAD") && (hGet req.header "range" = "" || req.rangeOptIn)

/-- `cacheable` after the first `CanCache` consultation (lines 234-238). -/
def effCacheable (t : TransportModel) (req : Request) : Bool :=
  match t.canCache with
  | some f => isCacheableBase req && f req none
  | none => isCacheableBase req

/-- The cached-entry lookup of lines 240-245: only a cacheable request
consults the store. -/
def cachedLookup (t : TransportModel) (req : Request) : Option Response :=
  if effCacheable t req then t.lookup (cacheKeyOf req) else none

/-- `Transport.RoundTrip` as a pure function over the environment and the
transport collaborators, returning the response (or surfaced error), the
upstream calls and the cache-operation trace. -/
def roundTrip (env : Env) (t : TransportModel) (req : Request) : RTResult :=
  let cacheKey := cacheKeyOf req
  let cacheable := effCacheable t req
  let preOps : List CacheOp := if cacheable then [] else [CacheOp.del cacheKey]
  match cachedLookup t req with
  | some cached =>
    if varyMatches cached req then
      let freshness := getFreshness env cached.header req.header
      if freshness = .fresh then
        let c := { cached with statusCode := 304,
                               status := "Not Modified",
                               body := [],
                               header := delHeaders cached.header notModifiedDelHeaders,
                               contentLength := 0 }
        { result := some (annotate t.markCachedResponses true 1 freshness 0 (-1) c),
          upstreamCalls := [],
          ops := [] }
      else
        let inj := if freshness = .stale then injectValidators req cached else (req, 1)
        afterUpstream env t inj.1 cacheKey cached freshness inj.2
    else
      afterUpstream env t req cacheKey cached .transparent 1
  | none =>
    if (ccLookup (parseCacheControl req.header) "only-if-cached").isSome then
      let resp := gatewayTimeoutResponse
      let cacheable :=
        match t.canCache with
        | some f => cacheable && f req (some resp)
        | none => cacheable
      finishDispatch t.markCachedResponses req cacheKey cacheable false resp .transparent 1 0
        [] preOps
    else
      match t.upstream req with
      | none => { result := none, upstreamCalls := [req], ops := preOps }
      | some resp =>
        let cacheable :=
          match t.canCache with
          | some f => cacheable && f req (some resp)
          | none => cacheable
        finishDispatch t.markCachedResponses req cacheKey cacheable false resp .transparent 1 0
          [req] preOps

/-! ## Streaming capture (`cachingReadCloser.Read`) -/

/-- The error component of one underlying `Read` result: no error, `io.EOF`,
or some other error. -/
inductive ReadErr
  | noErr
  | eof
  | other
deriving DecidableEq, Repr

/-- The mutable state of a `cachingReadCloser`: the accumulation buffer and
the record of `OnEOF` invocations (each with the buffer contents handed to
the callback). -/
structure CRCState where
  buf : List Nat
  callbackArgs : List (List Nat)
deriving DecidableEq, Repr

/-- One `Read` through the wrapper.  The underlying body produced the bytes
`chunk` with error `err`; the wrapper appends `chunk` to its buffer, invokes
`OnEOF` with the buffer contents whenever `err` is `io.EOF`, and hands
`(chunk, err)` back to the caller unchanged. -/
def crcRead (st : CRCState) (chunk : List Nat) (err : ReadErr) :
    (List Nat × ReadErr) × CRCState :=
  let buf := st.buf ++ chunk
  let cbs := if err = .eof then st.callbackArgs ++ [buf] else st.callbackArgs
  ((chunk, err), { buf := buf, callbackArgs := cbs })

/-- Run a sequence of reads through the wrapper, collecting what the caller
receives and the final wrapper state. -/
def crcRun (reads : List (List Nat × ReadErr)) : List (List Nat × ReadErr) × CRCState :=
  reads.foldl
    (fun acc r =>
      let step := crcRead acc.2 r.1 r.2
      (acc.1 ++ [step.1], step.2))
    ([], { buf := [], callbackArgs := [] })

/-! ## Request-header aliasing (`cloneRequest` and the validator injection)

To state that a dispatch never mutates the caller's request we make the Go
aliasing explicit: a header map lives in a heap of maps and a request holds
a pointer to one, so a write through one pointer would be visible through
any alias.  Validator injection (lines 270-291) is re-run on this heap. -/

/-- A heap of header maps; a pointer is an index. -/
abbrev Heap := List Header

/-- Dereference a header-map pointer. -/
def heapRead (σ : Heap) (p : Nat) : Header := σ.getD p []

/-- Write through a header-map pointer. -/
def heapWrite (σ : Heap) (p : Nat) (h : Header) : Heap := σ.set p h

/-- A request whose header map is a heap pointer. -/
structure RequestH where
  method : String
  url : String
  header : Nat
  rangeOptIn : Bool
deriving DecidableEq, Repr

/-- `cloneRequest`: a shallow copy of the struct together with a fresh
header map populated entry by entry from the original
(`for k, s := range r.Header { r2.Header[k] = s }`). -/
def cloneRequestH (σ : Heap) (r : RequestH) : Heap × RequestH :=
  let copied := (heapRead σ r.header).foldl (fun m kv => m ++ [kv]) ([] : Header)
  (σ ++ [copied], { r with header := σ.length })

/-- `req2.Header.Set(k, v)` through a pointer. -/
def headerSetH (σ : Heap) (p : Nat) (k v : String) : Heap :=
  heapWrite σ p (hSet (heapRead σ p) k v)

/-- The validator-injection step of `Transport.RoundTrip` (lines 270-291)
on the heap: clone the request before the first `Set`, and perform every
`Set` on the clone's fresh header map.  Returns the new heap, the request
variable after the step, and the `staleclient` flag. -/
def addValidatorsH (σ : Heap) (req : RequestH) (cachedHeader : Header) :
    Heap × RequestH × Int :=
  let etag := hGet cachedHeader "etag"
  let lastModified := hGet cachedHeader "last-modified"
  if etag ≠ "" then
    let alloc := cloneRequestH σ req
    let σ2 := headerSetH alloc.1 alloc.2.header "if-none-match" etag
    if lastModified ≠ "" then
      (headerSetH σ2 alloc.2.header "if-modified-since" lastModified, alloc.2, 0)
    else (σ2, alloc.2, 0)
  else if lastModified ≠ "" then
    let alloc := cloneRequestH σ req
    (headerSetH alloc.1 alloc.2.header "if-modified-since" lastModified, alloc.2, 0)
  else (σ, req, 1)

/-! ## Definitions taken from the specification's wording

These definitions are *not* translations of the source: each follows the
words of a spec claim (or of its amendment) and is compared against the
source translation above. -/

/-- C6, as the claim words it: split the header value on `,`, trim
surrounding whitespace from each part, skip empty parts; a part containing
`=` is split on the *first* `=` into key and value, each trimmed of
whitespace; parts without `=` get the empty value; last duplicate wins. -/
def parseCacheControlPerClaim (headers : Header) : CacheControl :=
  let ccHeader := hGet headers "Cache-Control"
  (goSplit ccHeader ',').foldl
    (fun cc part =>
      let part := trimSpaceFull part
      if part = "" then cc
      else if part.toList.contains '=' then
        let key := (part.toList.takeWhile (fun c => c ≠ '=')).asString
        let value := ((part.toList.dropWhile (fun c => c ≠ '=')).drop 1).asString
        ccInsert cc (trimSpaceFull key) (trimSpaceFull value)
      else ccInsert cc part "")
    []

/-- C6 as amended: like the claim but the part and the key are trimmed of
ASCII spaces only; the value is the text between the first and the second
`=` (anything after a second `=` is dropped) and is trimmed of commas, so
whitespace around the value is preserved. -/
def parseCacheControlAmended (headers : Header) : CacheControl :=
  let ccHeader := hGet headers "Cache-Control"
  (goSplit ccHeader ',').foldl
    (fun cc part =>
      let part := trimSpacesGo part
      if part = "" then cc
      else if part.toList.contains '=' then
        let key := (part.toList.takeWhile (fun c => c ≠ '=')).asString
        let value := (((part.toList.dropWhile (fun c => c ≠ '=')).drop 1).takeWhile
          (fun c => c ≠ '=')).asString
        ccInsert cc (trimSpacesGo key) (trimCommasGo value)
      else ccInsert cc part "")
    []

/-- The hop-by-hop set as claim C3 words it: the eight fixed names plus
every name listed in the `Connection` header (comma-separated names, with
surrounding whitespace insignificant, in canonical form). -/
def hopByHopPerClaim (respHeaders : Header) : List String :=
  fixedHopByHopHeaders ++
    (goSplit (hGet respHeaders "connection") ',').filterMap
      (fun extra =>
        let name := trimSpacesGo extra
        if name ≠ "" then some (canonicalKey name) else none)

/-- `stale-if-error` applicability as claim C4 words it: a valueless
directive in the request or the response `Cache-Control`, or a valued one
(in either) whose parsed window exceeds the age `now - Date`. -/
def staleIfErrorPerClaim (env : Env) (respHeaders reqHeaders : Header) : Bool :=
  let respDir := ccLookup (parseCacheControl respHeaders) "stale-if-error"
  let reqDir := ccLookup (parseCacheControl reqHeaders) "stale-if-error"
  let windowExceedsAge : Option String → Bool := fun dir =>
    match dir with
    | some v =>
      v ≠ "" &&
        (match env.parseDur v, dateOf env respHeaders with
         | some w, some date => w > env.now - date
         | _, _ => false)
    | none => false
  respDir = some "" || reqDir = some "" ||
    windowExceedsAge respDir || windowExceedsAge reqDir

/-! # Infrastructure lemmas -/

theorem splitOnChar_ne_nil (sep : Char) (l : List Char) : splitOnChar sep l ≠ [] := by
  cases l with
  | nil => simp [splitOnChar]
  | cons c cs =>
    simp only [splitOnChar]
    cases h : splitOnChar sep cs with
    | nil => simp
    | cons r rs => by_cases hc : c = sep <;> simp [hc]

theorem splitOnChar_field0 (sep : Char) (l : List Char) :
    (splitOnChar sep l).getD 0 [] = l.takeWhile (fun c => c ≠ sep) := by
  induction l with
  | nil => simp [splitOnChar]
  | cons c cs ih =>
    simp only [splitOnChar]
    cases h : splitOnChar sep cs with
    | nil => exact absurd h (splitOnChar_ne_nil sep cs)
    | cons r rs =>
      by_cases hc : c = sep
      · subst hc
        simp [List.takeWhile_cons]
      · rw [h] at ih
        simp only [List.getD_cons_zero] at ih
        simp [hc, List.takeWhile_cons, ih]

theorem splitOnChar_field1 (sep : Char) (l : List Char) :
    (splitOnChar sep l).getD 1 [] =
      ((l.dropWhile (fun c => c ≠ sep)).drop 1).takeWhile (fun c => c ≠ sep) := by
  induction l with
  | nil => simp [splitOnChar]
  | cons c cs ih =>
    simp only [splitOnChar]
    cases h : splitOnChar sep cs with
    | nil => exact absurd h (splitOnChar_ne_nil sep cs)
    | cons r rs =>
      by_cases hc : c = sep
      · have h0 := splitOnChar_field0 sep cs
        rw [h] at h0
        simp only [List.getD_cons_zero] at h0
        simp [hc, h0, List.dropWhile_cons, List.drop_one]
      · rw [h] at ih
        simp [hc, List.dropWhile_cons] at ih ⊢
        exact ih

theorem goSplit_getD (s : String) (sep : Char) (i : Nat) :
    (goSplit s sep).getD i "" = ((splitOnChar sep s.toList).getD i []).asString := by
  unfold goSplit
  simp only [List.getD_eq_getElem?_getD, List.getElem?_map]
  cases (splitOnChar sep s.toList)[i]? <;> rfl

theorem find?_keyReplace_ne {a b : String} (vs : List String) (hab : a ≠ b) :
    ∀ t : Header,
      (t.map (fun p => if p.1 = a then (a, vs) else p)).find? (fun p => decide (p.1 = b))
        = t.find? (fun p => decide (p.1 = b)) := by
  intro t
  induction t with
  | nil => rfl
  | cons q rest ih =>
    by_cases hq : q.1 = a
    · have hqb : ¬ q.1 = b := by rw [hq]; exact hab
      simp only [List.map_cons, if_pos hq]
      rw [List.find?_cons_of_neg _ (by simpa using hab),
          List.find?_cons_of_neg _ (by simpa using hqb)]
      exact ih
    · simp only [List.map_cons, if_neg hq]
      by_cases hqb : q.1 = b
      · rw [List.find?_cons_of_pos _ (by simpa using hqb),
            List.find?_cons_of_pos _ (by simpa using hqb)]
      · rw [List.find?_cons_of_neg _ (by simpa using hqb),
            List.find?_cons_of_neg _ (by simpa using hqb)]
        exact ih

theorem find?_keyReplace_eq {a : String} (vs : List String) :
    ∀ t : Header, t.any (fun p => decide (p.1 = a)) = true →
      (t.map (fun p => if p.1 = a then (a, vs) else p)).find? (fun p => decide (p.1 = a))
        = some (a, vs) := by
  intro t
  induction t with
  | nil => intro h; simp at h
  | cons q rest ih =>
    intro hany
    by_cases hq : q.1 = a
    · simp only [List.map_cons, if_pos hq]
      rw [List.find?_cons_of_pos _ (by simp)]
    · simp only [List.map_cons, if_neg hq]
      rw [List.find?_cons_of_neg _ (by simpa using hq)]
      apply ih
      simpa [hq] using hany

theorem hIndex_hSetRaw_ne {a b : String} (h : Header) (vs : List String) (hab : a ≠ b) :
    hIndex (hSetRaw h a vs) b = hIndex h b := by
  unfold hSetRaw hIndex
  cases hany : h.any (fun p => p.1 = a) with
  | true =>
    rw [if_pos rfl, find?_keyReplace_ne vs hab h]
  | false =>
    rw [if_neg (by simp), List.find?_append]
    have h1 : List.find? (fun p => decide (p.1 = b)) [(a, vs)] = none := by
      simp [List.find?, hab]
    rw [h1]
    cases h.find? (fun p => decide (p.1 = b)) <;> rfl

theorem hIndex_hSetRaw_eq (h : Header) (a : String) (vs : List String) :
    hIndex (hSetRaw h a vs) a = vs := by
  unfold hSetRaw hIndex
  cases hany : h.any (fun p => p.1 = a) with
  | true =>
    rw [if_pos rfl, find?_keyReplace_eq vs h hany]
  | false =>
    rw [if_neg (by simp), List.find?_append]
    have h1 : List.find? (fun p => decide (p.1 = a)) h = none := by
      rw [List.find?_eq_none]
      intro x hx
      have := List.any_eq_false.mp hany x hx
      simpa using this
    rw [h1]
    simp [List.find?]

theorem hGet_hSet_ne {k' k : String} (h : Header) (v : String)
    (hne : canonicalKey k' ≠ canonicalKey k) : hGet (hSet h k' v) k = hGet h k := by
  unfold hGet hSet
  rw [hIndex_hSetRaw_ne _ _ hne]

theorem parseCacheControl_ext {h1 h2 : Header}
    (e : hGet h1 "Cache-Control" = hGet h2 "Cache-Control") :
    parseCacheControl h1 = parseCacheControl h2 := by
  unfold parseCacheControl
  rw [e]

theorem canonicalKey_append_X_head (s : String) :
    ((canonicalKey ("X-Varied-" ++ s)).toList).head? = some 'X' := by
  have hdata : ("X-Varied-" ++ s).toList = 'X' :: ("-Varied-".toList ++ s.toList) := rfl
  unfold canonicalKey
  rw [hdata]
  by_cases hall : (('X' :: ("-Varied-".toList ++ s.toList)).all validHeaderFieldChar) = true
  · rw [if_pos hall]
    rfl
  · rw [if_neg hall]
    rfl

theorem canonicalKey_XVaried_ne {k : String} (s : String)
    (hk : ((canonicalKey k).toList).head? ≠ some 'X') :
    canonicalKey ("X-Varied-" ++ s) ≠ canonicalKey k := by
  intro he
  exact hk (he ▸ canonicalKey_append_X_head s)

theorem hGet_addVariedHeaders (reqF : Request) (resp : Response) {k : String}
    (hk : ((canonicalKey k).toList).head? ≠ some 'X') :
    hGet (addVariedHeaders reqF resp).header k = hGet resp.header k := by
  unfold addVariedHeaders
  generalize headerAllCommaSepValues resp.header "vary" = l
  induction l generalizing resp with
  | nil => rfl
  | cons vk rest ih =>
    simp only [List.foldl_cons]
    rw [ih]
    by_cases hv : hGet reqF.header (canonicalKey vk) ≠ ""
    · rw [if_pos hv]
      exact hGet_hSet_ne _ _ (canonicalKey_XVaried_ne _ hk)
    · rw [if_neg hv]

theorem hGet_annotate (mark respIsCached : Bool) (xpc : Nat) (f : Freshness)
    (xw : Nat) (sc : Int) (resp : Response) {k : String}
    (hk : canonicalKey "X-Proxy-Cache" ≠ canonicalKey k) :
    hGet (annotate mark respIsCached xpc f xw sc resp).header k = hGet resp.header k := by
  unfold annotate
  cases mark with
  | false => rfl
  | true =>
    simp only [if_pos rfl]
    exact hGet_hSet_ne _ _ hk

/-! # Claim theorems -/

/-- C7: the cache key of a request is its full URL for method GET, and
`method ++ " " ++ URL` for any other method; when the range opt-in marker is
absent the `Range` header does not participate in the key, and when it is
present and the request has a `Range` header the header's literal value is
appended with a `-` separator. -/
theorem claim_C7_cache_key (req : Request) :
    (req.rangeOptIn = false →
      (cacheKeyOf req =
        (if req.method = "GET" then req.url else req.method ++ " " ++ req.url)) ∧
      ∀ h : Header, cacheKeyOf { req with header := h } = cacheKeyOf req) ∧
    (req.rangeOptIn = true → hGet req.header "Range" ≠ "" →
      cacheKeyOf req =
        (if req.method = "GET" then req.url else req.method ++ " " ++ req.url) ++ "-" ++
          hGet req.header "Range") := by
  constructor
  · intro hopt
    constructor
    · unfold cacheKeyOf
      rw [hopt]
      simp
    · intro h
      unfold cacheKeyOf
      simp only [hopt]
      simp
  · intro hopt _
    unfold cacheKeyOf
    rw [hopt]
    simp

/-- Witness for C7 at a concrete non-GET request with the range opt-in
marker and a `Range` header. -/
theorem claim_C7_cache_key_witness :
    cacheKeyOf { method := "PUT", url := "http://e/a",
                 header := [("Range", ["bytes=0-1"])], rangeOptIn := true }
      = "PUT http://e/a-bytes=0-1" :=
  (claim_C7_cache_key { method := "PUT", url := "http://e/a",
                        header := [("Range", ["bytes=0-1"])], rangeOptIn := true }).2
    rfl (by decide)

/-- The concrete `Cache-Control` header refuting claim C6. -/
def hdrC6 : Header := [("Cache-Control", ["a=b=c"])]

/-- Counterexample to C6: on the value `a=b=c` the parser keeps only the
text between the first and second `=` (value `b`), while the claim's
first-`=` split would give value `b=c`. -/
theorem claim_C6_counterexample :
    parseCacheControl hdrC6 = [("a", "b")] ∧
    parseCacheControlPerClaim hdrC6 = [("a", "b=c")] ∧
    parseCacheControl hdrC6 ≠ parseCacheControlPerClaim hdrC6 := by
  refine ⟨by decide, by decide, by decide⟩

/-- C6 as amended: the parser splits on `,`, trims ASCII spaces from each
part, skips empty parts, and for a part containing `=` takes the text before
the first `=` (trimmed of spaces) as key and the text between the first and
second `=` (trimmed of commas, whitespace preserved) as value; other parts
are valueless; duplicates: last wins; no quoting. -/
theorem claim_C6_parse_cache_control (h : Header) :
    parseCacheControl h = parseCacheControlAmended h := by
  have hstep :
      (fun (cc : CacheControl) (part : String) =>
        let part := trimSpacesGo part
        if part = "" then cc
        else if part.toList.contains '=' then
          let keyval := goSplit part '='
          ccInsert cc (trimSpacesGo (keyval.getD 0 "")) (trimCommasGo (keyval.getD 1 ""))
        else ccInsert cc part "") =
      (fun (cc : CacheControl) (part : String) =>
        let part := trimSpacesGo part
        if part = "" then cc
        else if part.toList.contains '=' then
          let key := (part.toList.takeWhile (fun c => c ≠ '=')).asString
          let value := (((part.toList.dropWhile (fun c => c ≠ '=')).drop 1).takeWhile
            (fun c => c ≠ '=')).asString
          ccInsert cc (trimSpacesGo key) (trimCommasGo value)
        else ccInsert cc part "") := by
    funext cc part
    simp only [goSplit_getD, splitOnChar_field0, splitOnChar_field1]
  unfold parseCacheControl parseCacheControlAmended
  rw [hstep]

/-- C2: the freshness evaluator's precedence, first match winning: request
`no-cache` gives transparent; else response `no-cache` gives stale; else
request `only-if-cached` gives fresh; else a missing or unparseable response
`Date` gives stale; and a request `max-stale` with an empty value gives
fresh regardless of the computed lifetime, before the lifetime-versus-age
comparison. -/
theorem claim_C2_freshness_precedence (env : Env) (respHeaders reqHeaders : Header) :
    ((ccLookup (parseCacheControl reqHeaders) "no-cache").isSome = true →
      getFreshness env respHeaders reqHeaders = .transparent) ∧
    ((ccLookup (parseCacheControl reqHeaders) "no-cache").isSome = false →
      (ccLookup (parseCacheControl respHeaders) "no-cache").isSome = true →
      getFreshness env respHeaders reqHeaders = .stale) ∧
    ((ccLookup (parseCacheControl reqHeaders) "no-cache").isSome = false →
      (ccLookup (parseCacheControl respHeaders) "no-cache").isSome = false →
      (ccLookup (parseCacheControl reqHeaders) "only-if-cached").isSome = true →
      getFreshness env respHeaders reqHeaders = .fresh) ∧
    ((ccLookup (parseCacheControl reqHeaders) "no-cache").isSome = false →
      (ccLookup (parseCacheControl respHeaders) "no-cache").isSome = false →
      (ccLookup (parseCacheControl reqHeaders) "only-if-cached").isSome = false →
      dateOf env respHeaders = none →
      getFreshness env respHeaders reqHeaders = .stale) ∧
    ((ccLookup (parseCacheControl reqHeaders) "no-cache").isSome = false →
      (ccLookup (parseCacheControl respHeaders) "no-cache").isSome = false →
      (ccLookup (parseCacheControl reqHeaders) "only-if-cached").isSome = false →
      dateOf env respHeaders ≠ none →
      ccLookup (parseCacheControl reqHeaders) "max-stale" = some "" →
      getFreshness env respHeaders reqHeaders = .fresh) := by
  refine ⟨?_, ?_, ?_, ?_, ?_⟩
  · intro h1
    simp [getFreshness, h1]
  · intro h1 h2
    simp [getFreshness, h1, h2]
  · intro h1 h2 h3
    simp [getFreshness, h1, h2, h3]
  · intro h1 h2 h3 h4
    simp [getFreshness, h1, h2, h3, h4]
  · intro h1 h2 h3 h4 h5
    obtain ⟨d, hd⟩ := Option.ne_none_iff_exists'.mp h4
    simp [getFreshness, h1, h2, h3, hd, h5]

/-- Concrete environment for the C2 witness. -/
def envC2W : Env :=
  { parseTime := fun _ => some 0, parseDur := fun _ => none, now := 0 }

/-- Witness for C2: a request carrying only `Cache-Control: max-stale`
(empty value) against a response with a parseable `Date` gets `fresh`. -/
theorem claim_C2_witness :
    getFreshness envC2W [("Date", ["D"])] [("Cache-Control", ["max-stale"])] = .fresh :=
  (claim_C2_freshness_precedence envC2W [("Date", ["D"])]
    [("Cache-Control", ["max-stale"])]).2.2.2.2
    (by decide) (by decide) (by decide) (by decide) (by decide)

/-- Step components of `crcRun`, proved by one induction each. -/
theorem crcRun_foldl_parts (reads : List (List Nat × ReadErr)) :
    ∀ (outs : List (List Nat × ReadErr)) (st : CRCState),
      (reads.foldl
        (fun acc r =>
          let step := crcRead acc.2 r.1 r.2
          (acc.1 ++ [step.1], step.2))
        (outs, st)).1 = outs ++ reads ∧
      (reads.foldl
        (fun acc r =>
          let step := crcRead acc.2 r.1 r.2
          (acc.1 ++ [step.1], step.2))
        (outs, st)).2.buf = st.buf ++ (reads.map (fun r => r.1)).flatten ∧
      (reads.foldl
        (fun acc r =>
          let step := crcRead acc.2 r.1 r.2
          (acc.1 ++ [step.1], step.2))
        (outs, st)).2.callbackArgs.length
        = st.callbackArgs.length + (reads.filter (fun r => r.2 = .eof)).length := by
  induction reads with
  | nil => intro outs st; simp
  | cons r rest ih =>
    intro outs st
    simp only [List.foldl_cons]
    refine ⟨?_, ?_, ?_⟩
    · rw [(ih _ _).1]
      simp [crcRead]
    · rw [(ih _ _).2.1]
      simp [crcRead]
    · rw [(ih _ _).2.2]
      by_cases he : r.2 = ReadErr.eof
      · simp [crcRead, he]
        omega
      · simp [crcRead, he]

/-- Counterexample to C9: a caller that issues one more read after the
first end-of-stream sees the callback invoked twice. -/
theorem claim_C9_counterexample :
    (crcRun [([1], ReadErr.eof), ([], ReadErr.eof)]).2.callbackArgs.length = 2 ∧
    ¬ ((crcRun [([1], ReadErr.eof), ([], ReadErr.eof)]).2.callbackArgs.length ≤ 1) := by
  refine ⟨by decide, by decide⟩

/-- C9 as amended: each read hands the caller exactly the underlying bytes
and error; the callback fires once per read whose underlying result is
`io.EOF` (in particular at most once provided the caller performs no
further reads after the first EOF), and the buffer accumulates exactly the
bytes read. -/
theorem claim_C9_streaming_capture (reads : List (List Nat × ReadErr)) :
    (crcRun reads).1 = reads ∧
    (crcRun reads).2.callbackArgs.length
      = (reads.filter (fun r => r.2 = .eof)).length ∧
    ((reads.filter (fun r => r.2 = .eof)).length ≤ 1 →
      (crcRun reads).2.callbackArgs.length ≤ 1) ∧
    (crcRun reads).2.buf = (reads.map (fun r => r.1)).flatten := by
  have h := crcRun_foldl_parts reads [] { buf := [], callbackArgs := [] }
  have h1 : (crcRun reads).1 = reads := by simpa [crcRun] using h.1
  have h2 : (crcRun reads).2.callbackArgs.length
      = (reads.filter (fun r => r.2 = .eof)).length := by simpa [crcRun] using h.2.2
  have h3 : (crcRun reads).2.buf = (reads.map (fun r => r.1)).flatten := by
    simpa [crcRun] using h.2.1
  exact ⟨h1, h2, fun hle => by rw [h2]; exact hle, h3⟩

/-- Witness for C9: a well-behaved read sequence (one EOF, as its last
read) invokes the callback at most once. -/
theorem claim_C9_witness :
    (crcRun [([7], ReadErr.noErr), ([], ReadErr.eof)]).2.callbackArgs.length ≤ 1 :=
  (claim_C9_streaming_capture [([7], ReadErr.noErr), ([], ReadErr.eof)]).2.2.1 (by decide)

/-- C10: the validator-injection step performs its header writes on a
shallow clone with a freshly allocated copy of the header map, so the
caller's original header map is unchanged afterwards; moreover either
validators were injected on the clone (`staleclient = 0`) or the request,
the heap and the flag are returned untouched. -/
theorem claim_C10_no_request_mutation (σ : Heap) (req : RequestH) (cachedHeader : Header)
    (hp : req.header < σ.length) :
    heapRead (addValidatorsH σ req cachedHeader).1 req.header = heapRead σ req.header ∧
    ((addValidatorsH σ req cachedHeader).2.2 = 0 ∨
      addValidatorsH σ req cachedHeader = (σ, req, 1)) := by
  have hne : σ.length ≠ req.header := by omega
  have happ : ∀ c : Header, heapRead (σ ++ [c]) req.header = heapRead σ req.header := by
    intro c
    unfold heapRead
    simp only [List.getD_eq_getElem?_getD]
    rw [List.getElem?_append_left hp]
  have hset : ∀ (l : Heap) (h : Header), heapRead (l.set σ.length h) req.header = heapRead l req.header := by
    intro l h
    unfold heapRead
    simp only [List.getD_eq_getElem?_getD]
    rw [List.getElem?_set_ne hne]
  unfold addValidatorsH cloneRequestH headerSetH heapWrite
  by_cases he : hGet cachedHeader "etag" ≠ ""
  · by_cases hl : hGet cachedHeader "last-modified" ≠ ""
    · rw [if_pos he, if_pos hl]
      exact ⟨by rw [hset, hset, happ], Or.inl rfl⟩
    · rw [if_pos he, if_neg hl]
      exact ⟨by rw [hset, happ], Or.inl rfl⟩
  · by_cases hl : hGet cachedHeader "last-modified" ≠ ""
    · rw [if_neg he, if_pos hl]
      exact ⟨by rw [hset, happ], Or.inl rfl⟩
    · rw [if_neg he, if_neg hl]
      exact ⟨rfl, Or.inr rfl⟩

/-- Witness for C10 at a concrete heap, request and cached entry. -/
theorem claim_C10_witness :
    heapRead
      (addValidatorsH [[("Cache-Control", ["no-cache"])]]
        { method := "GET", url := "u", header := 0, rangeOptIn := false }
        [("Etag", ["x"])]).1 0
      = [("Cache-Control", ["no-cache"])] := by
  have h := (claim_C10_no_request_mutation [[("Cache-Control", ["no-cache"])]]
    { method := "GET", url := "u", header := 0, rangeOptIn := false }
    [("Etag", ["x"])] (by decide)).1
  rw [h]
  rfl

/-- The synthetic 504 response can never pass the storability gate: it has
neither an `ETag` nor a `Last-Modified` header. -/
theorem canStore_gatewayTimeout (rq rs : CacheControl) :
    canStore rq rs gatewayTimeoutResponse = false := by
  unfold canStore
  split
  · rfl
  · split
    · rfl
    · rw [if_pos (by decide)]

/-- `afterUpstream` always performs exactly one upstream call, with the
request it was handed. -/
theorem afterUpstream_upstreamCalls (env : Env) (t : TransportModel) (req2 : Request)
    (key : String) (cached : Response) (f : Freshness) (sc : Int) :
    (afterUpstream env t req2 key cached f sc).upstreamCalls = [req2] := by
  unfold afterUpstream
  cases t.upstream req2 with
  | none =>
    simp only []
    split_ifs <;> rfl
  | some resp =>
    simp only []
    split_ifs <;> rfl

/-- The C8 request: a cacheable `GET` carrying `Cache-Control: only-if-cached`
and no `Accept` header. -/
def reqC8 : Request :=
  { method := "GET", url := "http://e/v",
    header := [("Cache-Control", ["only-if-cached"])], rangeOptIn := false }

/-- A cached entry whose recorded `Vary` value (`X-Varied-Accept: gzip`)
mismatches `reqC8`, which sends no `Accept` at all. -/
def entryC8 : Response :=
  { statusCode := 200, status := "OK",
    header := [("Date", ["D"]), ("Etag", ["x"]),
               ("Vary", ["Accept"]), ("X-Varied-Accept", ["gzip"])],
    body := [104], contentLength := 1 }

/-- The upstream answer in the C8 counterexample scenario: a plain 200. -/
def respC8up : Response :=
  { statusCode := 200, status := "OK", header := [("Date", ["D"])],
    body := [104, 105], contentLength := 2 }

/-- C8 transport with the vary-mismatched entry cached under `reqC8`'s key. -/
def tC8 : TransportModel :=
  { upstream := fun _ => some respC8up,
    lookup := fun k => if k = "http://e/v" then some entryC8 else none,
    markCachedResponses := false, canCache := none }

/-- C8 transport with an empty cache. -/
def tMissC8 : TransportModel :=
  { upstream := fun _ => none, lookup := fun _ => none,
    markCachedResponses := false, canCache := none }

/-- Counterexample to C8: a cacheable `only-if-cached` GET against a cached
entry whose `Vary`-recorded values mismatch the request — "no usable cached
entry" in the claim's sense — does NOT receive the synthetic 504: the
dispatch calls the upstream transport once and returns its 200 answer. -/
theorem claim_C8_counterexample :
    effCacheable tC8 reqC8 = true ∧
    cachedLookup tC8 reqC8 = some entryC8 ∧
    varyMatches entryC8 reqC8 = false ∧
    (ccLookup (parseCacheControl reqC8.header) "only-if-cached").isSome = true ∧
    (roundTrip envC2W tC8 reqC8).upstreamCalls = [reqC8] ∧
    (roundTrip envC2W tC8 reqC8).result = some respC8up ∧
    (roundTrip envC2W tC8 reqC8).result ≠ some gatewayTimeoutResponse := by
  exact ⟨by decide, by decide, by decide, by decide, by decide, by decide, by decide⟩

/-- C8 as amended: the synthetic-504 branch is reached only when the cache
lookup finds no entry (which covers every non-cacheable request).  (a) On a
lookup miss, a request whose `Cache-Control` contains `only-if-cached`
receives the synthetic `504 Gateway Timeout` (status 504, empty header set,
empty body) and the upstream transport is not called.  (b) A cached entry
whose `Vary`-recorded values mismatch the request does not take this
branch: the dispatch calls the upstream transport exactly once, with the
original request.  (`markCachedResponses = false` keeps the returned 504
free of the diagnostic annotation header that §6 would otherwise add.) -/
theorem claim_C8_only_if_cached_504 (env : Env) (t : TransportModel) (req : Request)
    (hoic : (ccLookup (parseCacheControl req.header) "only-if-cached").isSome = true)
    (hmark : t.markCachedResponses = false) :
    (cachedLookup t req = none →
      (roundTrip env t req).upstreamCalls = [] ∧
      (roundTrip env t req).result = some gatewayTimeoutResponse ∧
      gatewayTimeoutResponse.statusCode = 504 ∧
      gatewayTimeoutResponse.header = [] ∧
      gatewayTimeoutResponse.body = []) ∧
    (∀ cached, cachedLookup t req = some cached → varyMatches cached req = false →
      (roundTrip env t req).upstreamCalls = [req]) := by
  constructor
  · intro hmiss
    have hcore : ∀ (reqF : Request) (key : String) (cacheable : Bool),
        finishCore false reqF key cacheable false gatewayTimeoutResponse .transparent 1 0
          = (gatewayTimeoutResponse, [CacheOp.del key]) := by
      intro reqF key cacheable
      unfold finishCore
      have h304 : (if ((1 : Int) = 1 && gatewayTimeoutResponse.statusCode = 304 : Bool) then
          strip304 gatewayTimeoutResponse else gatewayTimeoutResponse) = gatewayTimeoutResponse := by
        decide
      rw [h304]
      simp only []
      rw [canStore_gatewayTimeout, Bool.and_false]
      rw [if_neg (by decide)]
      unfold annotate
      rw [if_neg (by decide)]
    have hrt : roundTrip env t req
        = { result := some gatewayTimeoutResponse,
            upstreamCalls := [],
            ops := (if effCacheable t req then ([] : List CacheOp)
                      else [CacheOp.del (cacheKeyOf req)]) ++ [CacheOp.del (cacheKeyOf req)] } := by
      simp only [roundTrip, hmiss, hoic, if_true]
      rw [hmark]
      unfold finishDispatch
      rw [hcore]
    rw [hrt]
    exact ⟨rfl, rfl, rfl, rfl, rfl⟩
  · intro cached hlk hv
    simp only [roundTrip, hlk]
    rw [if_neg (show ¬ (varyMatches cached req = true) from by
      rw [hv]; exact Bool.false_ne_true)]
    exact afterUpstream_upstreamCalls env t req (cacheKeyOf req) cached .transparent 1

/-- Witness for C8: the lookup-miss branch yields the 504 with no upstream
call, and the vary-mismatch branch yields exactly one upstream call. -/
theorem claim_C8_witness :
    ((roundTrip envC2W tMissC8 reqC8).upstreamCalls = [] ∧
     (roundTrip envC2W tMissC8 reqC8).result = some gatewayTimeoutResponse) ∧
    (roundTrip envC2W tC8 reqC8).upstreamCalls = [reqC8] :=
  have h1 := (claim_C8_only_if_cached_504 envC2W tMissC8 reqC8 (by decide) rfl).1 (by decide)
  have h2 := (claim_C8_only_if_cached_504 envC2W tC8 reqC8 (by decide) rfl).2 entryC8
    (by decide) (by decide)
  ⟨⟨h1.1, h1.2.1⟩, h2⟩

/-- Every outcome of `finishDispatch` reports exactly the upstream calls it
was handed. -/
theorem finishDispatch_upstreamCalls (mark : Bool) (reqF : Request) (key : String)
    (cacheable respIsCached : Bool) (resp : Response) (f : Freshness) (sc : Int)
    (xpc : Nat) (calls : List Request) (ops : List CacheOp) :
    (finishDispatch mark reqF key cacheable respIsCached resp f sc xpc calls ops).upstreamCalls
      = calls := rfl

/-- The environment used by the C1 scenario: the entry's `Date` value `D`
parses to time 0, `max-age=3600` parses to 3600 seconds, and the clock is
5 ns past the entry's date (far within the freshness lifetime). -/
def envC1 : Env :=
  { parseTime := fun s => if s = "D" then some 0 else none,
    parseDur := fun s => if s = "3600" then some 3600000000000 else none,
    now := 5 }

/-- The cached entry of the C1 scenario: `max-age=3600`, a valid `Date`, an
`ETag`, body present. -/
def entryC1 : Response :=
  { statusCode := 200, status := "OK",
    header := [("Date", ["D"]), ("Etag", ["x"]), ("Cache-Control", ["max-age=3600"])],
    body := [104, 105], contentLength := 2 }

/-- The C1 request: a `GET` with no headers at all. -/
def reqC1 : Request := { method := "GET", url := "http://e/a", header := [], rangeOptIn := false }

/-- The C1 transport: the entry is cached under the request's key. -/
def tC1 : TransportModel :=
  { upstream := fun _ => none,
    lookup := fun k => if k = "http://e/a" then some entryC1 else none,
    markCachedResponses := true, canCache := none }

/-- Counterexample to C1: for a GET with no conditional headers against an
entry within its freshness lifetime the verdict is `stale`, not `fresh`,
and the dispatch does call the upstream transport. -/
theorem claim_C1_counterexample :
    getFreshness envC1 entryC1.header reqC1.header = .stale ∧
    getFreshness envC1 entryC1.header reqC1.header ≠ .fresh ∧
    (roundTrip envC1 tC1 reqC1).upstreamCalls ≠ [] := by
  refine ⟨by decide, by decide, by decide⟩

/-- The C1 entry with symbolic `Date` and `ETag` values. -/
def freshEntryC1 (d e : String) : Response :=
  { statusCode := 200, status := "OK",
    header := [("Date", [d]), ("Etag", [e]), ("Cache-Control", ["max-age=3600"])],
    body := [104, 105], contentLength := 2 }

/-- C1 as amended: for a GET carrying no headers dispatched against a
cached entry that is within its freshness lifetime (`max-age=3600`, valid
`Date`, nonempty `ETag`), the freshness verdict is `stale` — the `fresh`
verdict additionally requires the request's conditional headers to match
the entry's validators — and the dispatch revalidates: it calls the
upstream transport exactly once, with `If-None-Match` set to the entry's
`ETag`. -/
theorem claim_C1_fresh_hit (env : Env) (t : TransportModel) (u d e : String) (T L : Int)
    (hd : d ≠ "") (hT : env.parseTime d = some T) (hL : env.parseDur "3600" = some L)
    (hage : env.now - T < L) (he : e ≠ "") (hcc : t.canCache = none)
    (hlookup : t.lookup u = some (freshEntryC1 d e)) :
    getFreshness env (freshEntryC1 d e).header [] = .stale ∧
    (roundTrip env t { method := "GET", url := u, header := [], rangeOptIn := false }).upstreamCalls
      = [{ method := "GET", url := u, header := [("If-None-Match", [e])],
           rangeOptIn := false }] := by
  have hdate : dateOf env (freshEntryC1 d e).header = some T := by
    unfold dateOf
    have hg : hGet (freshEntryC1 d e).header "date" = d := rfl
    rw [hg, if_neg hd, hT]
  have hgf : getFreshness env (freshEntryC1 d e).header [] = .stale := by
    unfold getFreshness
    have hresp : parseCacheControl (freshEntryC1 d e).header = [("max-age", "3600")] := rfl
    have hreq : parseCacheControl ([] : Header) = [] := rfl
    rw [hresp, hreq, hdate]
    simp only [show ∀ k, ccLookup ([] : CacheControl) k = none from fun _ => rfl,
      show ccLookup [("max-age", "3600")] "no-cache" = none from rfl,
      show ccLookup [("max-age", "3600")] "max-age" = some "3600" from rfl,
      Option.isSome_none, Bool.false_eq_true, if_false, hL, Option.getD_some]
    unfold freshnessLifetimeCheck
    rw [if_pos hage]
    simp only [show hGet ([] : Header) "if-none-match" = "" from rfl,
      show hGet ([] : Header) "if-modified-since" = "" from rfl,
      show hGet (freshEntryC1 d e).header "last-modified" = "" from rfl]
    simp
  refine ⟨hgf, ?_⟩
  have heff : effCacheable t { method := "GET", url := u, header := [], rangeOptIn := false }
      = true := by
    unfold effCacheable
    rw [hcc]
    rfl
  have hcl : cachedLookup t { method := "GET", url := u, header := [], rangeOptIn := false }
      = some (freshEntryC1 d e) := by
    unfold cachedLookup
    rw [heff, if_pos (rfl : true = true)]
    exact hlookup
  have hinj : injectValidators { method := "GET", url := u, header := [], rangeOptIn := false }
      (freshEntryC1 d e)
      = ({ method := "GET", url := u, header := [("If-None-Match", [e])],
           rangeOptIn := false }, 0) := by
    unfold injectValidators
    rw [if_pos (show hGet (freshEntryC1 d e).header "etag" ≠ "" from he),
        if_neg (show ¬ hGet (freshEntryC1 d e).header "last-modified" ≠ "" from fun h => h rfl)]
    rfl
  simp only [roundTrip, hcl]
  rw [if_pos (show varyMatches (freshEntryC1 d e)
        { method := "GET", url := u, header := [], rangeOptIn := false } = true from rfl)]
  rw [hgf]
  rw [if_neg (show ¬ (Freshness.stale = Freshness.fresh) from by decide)]
  rw [if_pos (rfl : Freshness.stale = Freshness.stale)]
  rw [hinj]
  rw [afterUpstream_upstreamCalls]

/-- Witness for the amended C1 at the concrete scenario instances. -/
theorem claim_C1_fresh_hit_witness :
    getFreshness envC1 (freshEntryC1 "D" "x").header [] = .stale ∧
    (roundTrip envC1 tC1 reqC1).upstreamCalls
      = [{ method := "GET", url := "http://e/a", header := [("If-None-Match", ["x"])],
           rangeOptIn := false }] :=
  claim_C1_fresh_hit envC1 tC1 "http://e/a" "D" "x" 0 3600000000000
    (by decide) rfl rfl (by decide) (by decide) rfl (by decide)

/-- Keys not processed by the 304 merge loop keep their cached values. -/
theorem merge_foldl_not_mem (respH : Header) (sc : Int) (k : String) :
    ∀ (l : List String) (acc : Header), k ∉ l →
      hIndex (l.foldl (fun h header =>
        if sc = 0 && header = "Content-Length" then h
        else hSetRaw h header (hIndex respH header)) acc) k = hIndex acc k := by
  intro l
  induction l with
  | nil => intro acc _; rfl
  | cons a rest ih =>
    intro acc hk
    simp only [List.foldl_cons]
    have hak : a ≠ k := fun e => hk (e ▸ List.mem_cons_self a rest)
    rw [ih _ (fun hmem => hk (List.mem_cons_of_mem a hmem))]
    by_cases hc : (sc = 0 && a = "Content-Length") = true
    · rw [if_pos hc]
    · rw [if_neg hc, hIndex_hSetRaw_ne _ _ hak]

/-- Keys processed by the 304 merge loop (other than a skipped
`Content-Length`) take the 304 response's values. -/
theorem merge_foldl_mem (respH : Header) (sc : Int) (k : String)
    (hnotcl : ¬(sc = 0 ∧ k = "Content-Length")) :
    ∀ (l : List String) (acc : Header), k ∈ l →
      hIndex (l.foldl (fun h header =>
        if sc = 0 && header = "Content-Length" then h
        else hSetRaw h header (hIndex respH header)) acc) k = hIndex respH k := by
  intro l
  induction l with
  | nil => intro acc h; cases h
  | cons a rest ih =>
    intro acc hk
    simp only [List.foldl_cons]
    by_cases hmem : k ∈ rest
    · exact ih _ hmem
    · have hak : a = k := by
        rcases List.mem_cons.mp hk with h | h
        · exact h.symm
        · exact absurd h hmem
      have hc : ¬ ((sc = 0 && a = "Content-Length") = true) := by
        simp only [Bool.and_eq_true, decide_eq_true_eq, not_and]
        intro hsc hcl
        exact hnotcl ⟨hsc, hak ▸ hcl⟩
      rw [merge_foldl_not_mem respH sc k rest _ hmem, if_neg hc, hak, hIndex_hSetRaw_eq]

/-- With `staleclient = 0` the merge loop never touches `Content-Length`. -/
theorem merge_foldl_contentLength (respH : Header) (sc : Int) (hsc : sc = 0) :
    ∀ (l : List String) (acc : Header),
      hIndex (l.foldl (fun h header =>
        if sc = 0 && header = "Content-Length" then h
        else hSetRaw h header (hIndex respH header)) acc) "Content-Length"
        = hIndex acc "Content-Length" := by
  intro l
  induction l with
  | nil => intro acc; rfl
  | cons a rest ih =>
    intro acc
    simp only [List.foldl_cons]
    rw [ih]
    by_cases hc : (sc = 0 && a = "Content-Length") = true
    · rw [if_pos hc]
    · have hak : a ≠ "Content-Length" := by
        intro he
        exact hc (by simp [hsc, he])
      rw [if_neg hc, hIndex_hSetRaw_ne _ _ hak]

/-- The cached header set refuting C3's hop-by-hop conjunct. -/
def cachedC3 : Header := [("X-Custom", ["old"]), ("Etag", ["x"])]

/-- The 304 header set refuting C3: `X-Custom` is listed in `Connection`
(after a space), so the claim's hop-by-hop set contains it. -/
def respC3 : Header := [("Connection", ["close, X-Custom"]), ("X-Custom", ["new"])]

/-- Counterexample to C3: the name `X-Custom` is listed in the 304's
`Connection` header, yet the merge replaces the cached value — the code
canonicalises the *untrimmed* token `" X-Custom"`, which contains a space,
is returned unmodified by `CanonicalHeaderKey`, and never matches the
response key. -/
theorem claim_C3_counterexample :
    "X-Custom" ∈ hopByHopPerClaim respC3 ∧
    hIndex (merge304Headers cachedC3 respC3 1) "X-Custom" = ["new"] ∧
    hIndex cachedC3 "X-Custom" = ["old"] := by
  refine ⟨by decide, by decide, by decide⟩

/-- C3 as amended: every end-to-end header of the 304 replaces the
same-named header of the cached entry; the hop-by-hop set is the eight
fixed names plus the canonicalisation of each *untrimmed* comma-separated
part of the `Connection` value (so a name preceded by whitespace fails to
match a response key and is merged after all); end-to-end headers are
exactly the response keys outside that set; `Content-Length` is excluded
from the merge exactly when `staleclient = 0`, i.e. exactly when the
revalidator itself injected validators, which happens iff the entry
carried an `ETag` or a `Last-Modified` — irrespective of the caller's own
conditional headers. -/
theorem claim_C3_merge304 :
    (∀ (cachedH respH : Header) (sc : Int) (k : String),
      k ∈ getEndToEndHeaders respH → ¬(sc = 0 ∧ k = "Content-Length") →
      hIndex (merge304Headers cachedH respH sc) k = hIndex respH k) ∧
    (∀ (cachedH respH : Header) (sc : Int) (k : String),
      k ∉ getEndToEndHeaders respH →
      hIndex (merge304Headers cachedH respH sc) k = hIndex cachedH k) ∧
    (∀ (cachedH respH : Header),
      hIndex (merge304Headers cachedH respH 0) "Content-Length"
        = hIndex cachedH "Content-Length") ∧
    (∀ (respH : Header) (k : String),
      k ∈ getEndToEndHeaders respH ↔ k ∈ hKeys respH ∧ k ∉ hopByHopHeaders respH) ∧
    (∀ (req : Request) (cached : Response),
      (injectValidators req cached).2 = 0 ↔
        (hGet cached.header "etag" ≠ "" ∨ hGet cached.header "last-modified" ≠ "")) := by
  refine ⟨?_, ?_, ?_, ?_, ?_⟩
  · intro cachedH respH sc k hmem hnotcl
    exact merge_foldl_mem respH sc k hnotcl _ _ hmem
  · intro cachedH respH sc k hmem
    exact merge_foldl_not_mem respH sc k _ _ hmem
  · intro cachedH respH
    exact merge_foldl_contentLength respH 0 rfl _ _
  · intro respH k
    unfold getEndToEndHeaders
    simp only [List.mem_filter, decide_eq_true_eq]
    constructor
    · rintro ⟨h1, h2⟩
      exact ⟨h1, fun hm => h2 (List.elem_iff.mpr hm)⟩
    · rintro ⟨h1, h2⟩
      exact ⟨h1, fun hm => h2 (List.elem_iff.mp hm)⟩
  · intro req cached
    unfold injectValidators
    by_cases he : hGet cached.header "etag" ≠ ""
    · rw [if_pos he]
      by_cases hl : hGet cached.header "last-modified" ≠ ""
      · rw [if_pos hl]
        simp [he]
      · rw [if_neg hl]
        simp [he]
    · rw [if_neg he]
      by_cases hl : hGet cached.header "last-modified" ≠ ""
      · rw [if_pos hl]
        simp [hl]
      · rw [if_neg hl]
        simp [he, hl]

/-- Witness for the amended C3: the key `X-Custom` is end-to-end for the
concrete 304 headers, and with `staleclient = 1` the merge adopts the 304's
value for it. -/
theorem claim_C3_merge304_witness :
    hIndex (merge304Headers cachedC3 respC3 1) "X-Custom" = hIndex respC3 "X-Custom" :=
  claim_C3_merge304.1 cachedC3 respC3 1 "X-Custom" (by decide) (by decide)

/-- A `stale-if-error` directive position is unobstructed: absent,
valueless, or with a window that `time.ParseDuration` accepts. -/
def staleDirParses (env : Env) (dir : Option String) : Prop :=
  ∀ v, dir = some v → v ≠ "" → (env.parseDur v).isSome = true

/-- The window `canStaleOnError` ends up comparing against the age: the
request's valued directive overrides the response's. -/
def governingStaleWindow (env : Env) (respDir reqDir : Option String) : Option Int :=
  match reqDir with
  | some x => if x = "" then none else env.parseDur x
  | none =>
    match respDir with
    | some v => if v = "" then none else env.parseDur v
    | none => none

/-- The final window-versus-age comparison, as a logical characterisation. -/
theorem staleLifetimeCheck_iff (env : Env) (respH : Header) (w : Int) :
    staleLifetimeCheck env respH w = true ↔
      0 ≤ w ∧ ∃ dt, dateOf env respH = some dt ∧ env.now - dt < w := by
  unfold staleLifetimeCheck
  by_cases h0 : w ≥ 0
  · rw [if_pos h0]
    cases hd : dateOf env respH with
    | none => simp [hd]
    | some dt => simp [hd, h0]
  · rw [if_neg h0]
    simp [h0]

/-- The corrected characterisation of `canStaleOnError`: it holds iff the
response directive is valueless; or the response position parses and the
request directive is valueless; or both positions parse and the governing
window (the request's valued directive overriding the response's) is
non-negative and exceeds the age since the response's `Date`. -/
theorem canStaleOnError_iff (env : Env) (respH reqH : Header) :
    canStaleOnError env respH reqH = true ↔
      (ccLookup (parseCacheControl respH) "stale-if-error" = some "" ∨
       (staleDirParses env (ccLookup (parseCacheControl respH) "stale-if-error") ∧
         ccLookup (parseCacheControl reqH) "stale-if-error" = some "") ∨
       (staleDirParses env (ccLookup (parseCacheControl respH) "stale-if-error") ∧
        staleDirParses env (ccLookup (parseCacheControl reqH) "stale-if-error") ∧
        ∃ w, governingStaleWindow env
              (ccLookup (parseCacheControl respH) "stale-if-error")
              (ccLookup (parseCacheControl reqH) "stale-if-error") = some w ∧
          0 ≤ w ∧ ∃ dt, dateOf env respH = some dt ∧ env.now - dt < w)) := by
  unfold canStaleOnError
  cases hR : ccLookup (parseCacheControl respH) "stale-if-error" with
  | none =>
    cases hQ : ccLookup (parseCacheControl reqH) "stale-if-error" with
    | none => simp [hR, hQ, staleDirParses, governingStaleWindow]
    | some x =>
      by_cases hx : x = ""
      · subst hx
        simp [hR, hQ, staleDirParses, governingStaleWindow]
      · cases hpd : env.parseDur x with
        | none => simp [hR, hQ, hx, hpd, staleDirParses, governingStaleWindow]
        | some w =>
          simp [hR, hQ, hx, hpd, staleDirParses, governingStaleWindow, staleLifetimeCheck_iff]
  | some v =>
    by_cases hv : v = ""
    · subst hv
      simp [hR]
    · cases hpdv : env.parseDur v with
      | none => simp [hR, hv, hpdv, staleDirParses]
      | some wv =>
        cases hQ : ccLookup (parseCacheControl reqH) "stale-if-error" with
        | none =>
          simp [hR, hQ, hv, hpdv, staleDirParses, governingStaleWindow, staleLifetimeCheck_iff]
        | some x =>
          by_cases hx : x = ""
          · subst hx
            simp [hR, hQ, hv, hpdv, staleDirParses]
          · cases hpdx : env.parseDur x with
            | none => simp [hR, hQ, hv, hpdv, hx, hpdx, staleDirParses]
            | some wx =>
              simp [hR, hQ, hv, hpdv, hx, hpdx, staleDirParses, governingStaleWindow,
                staleLifetimeCheck_iff]

/-- `Cache-Control` is untouched by validator injection (only
`If-None-Match` / `If-Modified-Since` are set, on the clone). -/
theorem injectValidators_cacheControl (req : Request) (cached : Response) :
    hGet (injectValidators req cached).1.header "Cache-Control"
      = hGet req.header "Cache-Control" := by
  unfold injectValidators
  simp only []
  split_ifs <;> simp only [] <;> repeat rw [hGet_hSet_ne _ _ (by decide)]

/-- Validator injection keeps the request method. -/
theorem injectValidators_method (req : Request) (cached : Response) :
    (injectValidators req cached).1.method = req.method := by
  unfold injectValidators
  simp only []
  split_ifs <;> rfl

/-- `canStaleOnError` reads the request headers only through their
`Cache-Control` value. -/
theorem canStaleOnError_ext (env : Env) (respH : Header) {h1 h2 : Header}
    (e : hGet h1 "Cache-Control" = hGet h2 "Cache-Control") :
    canStaleOnError env respH h1 = canStaleOnError env respH h2 := by
  unfold canStaleOnError
  rw [parseCacheControl_ext e]

/-- A successful cache lookup implies the request method was GET or HEAD. -/
theorem cachedLookup_method (t : TransportModel) (req : Request) (cached : Response)
    (hcl : cachedLookup t req = some cached) :
    (req.method = "GET" || req.method = "HEAD") = true := by
  unfold cachedLookup at hcl
  by_cases h : effCacheable t req = true
  · unfold effCacheable at h
    cases hc : t.canCache with
    | some f =>
      rw [hc] at h
      simp only [Bool.and_eq_true] at h
      have hb := h.1
      unfold isCacheableBase at hb
      simp only [Bool.and_eq_true] at hb
      exact hb.1
    | none =>
      rw [hc] at h
      unfold isCacheableBase at h
      simp only [Bool.and_eq_true] at h
      exact h.1
  · rw [if_neg h] at hcl
    exact Option.noConfusion hcl

/-- On a transport error with `stale-if-error` applicable, `afterUpstream`
returns the cached entry (unannotated when marking is off) without touching
the store. -/
theorem afterUpstream_staleOnError (env : Env) (t : TransportModel) (req2 : Request)
    (key : String) (cached : Response) (f : Freshness) (sc : Int)
    (hup : t.upstream req2 = none)
    (hmeth : (req2.method = "GET" || req2.method = "HEAD") = true)
    (hso : canStaleOnError env cached.header req2.header = true)
    (hmark : t.markCachedResponses = false) :
    (afterUpstream env t req2 key cached f sc).result = some cached ∧
    (afterUpstream env t req2 key cached f sc).ops = [] := by
  unfold afterUpstream
  rw [hup]
  simp only []
  rw [if_pos (by rw [hmeth, hso]; rfl)]
  rw [hmark]
  unfold annotate
  rw [if_neg (by decide)]
  exact ⟨rfl, rfl⟩

/-- On a transport error with `stale-if-error` inapplicable, the error is
surfaced. -/
theorem afterUpstream_errorSurfaced (env : Env) (t : TransportModel) (req2 : Request)
    (key : String) (cached : Response) (f : Freshness) (sc : Int)
    (hup : t.upstream req2 = none)
    (hso : canStaleOnError env cached.header req2.header = false) :
    (afterUpstream env t req2 key cached f sc).result = none := by
  unfold afterUpstream
  rw [hup]
  simp only []
  rw [if_neg (by simp [hso])]

/-- On an upstream 5xx with `stale-if-error` applicable, `afterUpstream`
returns the cached entry. -/
theorem afterUpstream_5xx_staleOnError (env : Env) (t : TransportModel) (req2 : Request)
    (key : String) (cached : Response) (f : Freshness) (sc : Int) (errResp : Response)
    (hup : t.upstream req2 = some errResp) (h5 : 500 ≤ errResp.statusCode)
    (hmeth : (req2.method = "GET" || req2.method = "HEAD") = true)
    (hso : canStaleOnError env cached.header req2.header = true)
    (hmark : t.markCachedResponses = false) :
    (afterUpstream env t req2 key cached f sc).result = some cached := by
  unfold afterUpstream
  rw [hup]
  simp only []
  rw [if_neg (by simp; intro _ h; omega)]
  rw [if_pos (by simp [hmeth, hso]; omega)]
  rw [hmark]
  unfold annotate
  rw [if_neg (by decide)]

/-- A dispatch with a usable (possibly vary-mismatched) cached entry that
is not served fresh reduces to `afterUpstream` on a request with the same
method and `Cache-Control` as the caller's. -/
theorem roundTrip_toAfterUpstream (env : Env) (t : TransportModel) (req : Request)
    (cached : Response)
    (hcl : cachedLookup t req = some cached)
    (hnf : ¬(varyMatches cached req = true ∧
        getFreshness env cached.header req.header = .fresh)) :
    ∃ req2 f sc,
      roundTrip env t req = afterUpstream env t req2 (cacheKeyOf req) cached f sc ∧
      req2.method = req.method ∧
      hGet req2.header "Cache-Control" = hGet req.header "Cache-Control" := by
  simp only [roundTrip, hcl]
  by_cases hv : varyMatches cached req = true
  · rw [if_pos hv]
    have hnfr : ¬ (getFreshness env cached.header req.header = Freshness.fresh) :=
      fun hf => hnf ⟨hv, hf⟩
    rw [if_neg hnfr]
    by_cases hs : getFreshness env cached.header req.header = Freshness.stale
    · rw [if_pos hs]
      exact ⟨(injectValidators req cached).1, _, (injectValidators req cached).2,
        rfl, injectValidators_method req cached, injectValidators_cacheControl req cached⟩
    · rw [if_neg hs]
      exact ⟨req, _, 1, rfl, rfl, rfl⟩
  · rw [if_neg hv]
    exact ⟨req, .transparent, 1, rfl, rfl, rfl⟩

/-- The environment refuting C4's applicability rule: no duration parses. -/
def envC4 : Env := { parseTime := fun _ => some 0, parseDur := fun _ => none, now := 0 }

/-- Response headers refuting C4: a valued but unparseable window. -/
def respC4 : Header := [("Cache-Control", ["stale-if-error=zzz"])]

/-- Request headers refuting C4: a valueless `stale-if-error`. -/
def reqC4 : Header := [("Cache-Control", ["stale-if-error"])]

/-- Counterexample to C4: a valueless `stale-if-error` appears in the
request's `Cache-Control` — so the claim's rule says the extension applies
— yet `canStaleOnError` returns `false`, because the response's valued
directive is examined first and its unparseable window aborts at once. -/
theorem claim_C4_counterexample :
    staleIfErrorPerClaim envC4 respC4 reqC4 = true ∧
    canStaleOnError envC4 respC4 reqC4 = false := by
  refine ⟨by decide, by decide⟩

/-- C4 as amended.  Applicability: `canStaleOnError` holds iff the
response's `stale-if-error` is valueless, or the response position parses
and the request's directive is valueless, or both positions parse and the
governing window — the request's valued directive overriding the
response's — is non-negative and exceeds the age `now - Date` (so an
unparseable value on either side defeats the extension, and the request's
valued window overrides the response's rather than either one sufficing).
Dispatch: on a GET/HEAD dispatch with a cached entry not served fresh, if
the upstream transport fails and `canStaleOnError` holds the cached entry
is returned with no error; if it fails and `canStaleOnError` does not
hold the error is surfaced; and if upstream answers with status ≥ 500 and
`canStaleOnError` holds the cached entry is returned. -/
theorem claim_C4_stale_if_error :
    (∀ (env : Env) (respH reqH : Header),
      canStaleOnError env respH reqH = true ↔
        (ccLookup (parseCacheControl respH) "stale-if-error" = some "" ∨
         (staleDirParses env (ccLookup (parseCacheControl respH) "stale-if-error") ∧
           ccLookup (parseCacheControl reqH) "stale-if-error" = some "") ∨
         (staleDirParses env (ccLookup (parseCacheControl respH) "stale-if-error") ∧
          staleDirParses env (ccLookup (parseCacheControl reqH) "stale-if-error") ∧
          ∃ w, governingStaleWindow env
                (ccLookup (parseCacheControl respH) "stale-if-error")
                (ccLookup (parseCacheControl reqH) "stale-if-error") = some w ∧
            0 ≤ w ∧ ∃ dt, dateOf env respH = some dt ∧ env.now - dt < w))) ∧
    (∀ (env : Env) (t : TransportModel) (req : Request) (cached : Response),
      cachedLookup t req = some cached →
      ¬(varyMatches cached req = true ∧
          getFreshness env cached.header req.header = .fresh) →
      (∀ r, t.upstream r = none) →
      canStaleOnError env cached.header req.header = true →
      t.markCachedResponses = false →
      (roundTrip env t req).result = some cached) ∧
    (∀ (env : Env) (t : TransportModel) (req : Request) (cached : Response),
      cachedLookup t req = some cached →
      ¬(varyMatches cached req = true ∧
          getFreshness env cached.header req.header = .fresh) →
      (∀ r, t.upstream r = none) →
      canStaleOnError env cached.header req.header = false →
      (roundTrip env t req).result = none) ∧
    (∀ (env : Env) (t : TransportModel) (req : Request) (cached : Response)
        (errResp : Response),
      cachedLookup t req = some cached →
      ¬(varyMatches cached req = true ∧
          getFreshness env cached.header req.header = .fresh) →
      (∀ r, t.upstream r = some errResp) →
      500 ≤ errResp.statusCode →
      canStaleOnError env cached.header req.header = true →
      t.markCachedResponses = false →
      (roundTrip env t req).result = some cached) := by
  refine ⟨canStaleOnError_iff, ?_, ?_, ?_⟩
  · intro env t req cached hcl hnf hup hso hmark
    obtain ⟨req2, f, sc, heq, hm, hcc2⟩ := roundTrip_toAfterUpstream env t req cached hcl hnf
    rw [heq]
    refine (afterUpstream_staleOnError env t req2 _ cached f sc (hup req2) ?_ ?_ hmark).1
    · rw [hm]
      exact cachedLookup_method t req cached hcl
    · rw [canStaleOnError_ext env cached.header hcc2]
      exact hso
  · intro env t req cached hcl hnf hup hso
    obtain ⟨req2, f, sc, heq, hm, hcc2⟩ := roundTrip_toAfterUpstream env t req cached hcl hnf
    rw [heq]
    refine afterUpstream_errorSurfaced env t req2 _ cached f sc (hup req2) ?_
    rw [canStaleOnError_ext env cached.header hcc2]
    exact hso
  · intro env t req cached errResp hcl hnf hup h5 hso hmark
    obtain ⟨req2, f, sc, heq, hm, hcc2⟩ := roundTrip_toAfterUpstream env t req cached hcl hnf
    rw [heq]
    refine afterUpstream_5xx_staleOnError env t req2 _ cached f sc errResp (hup req2) h5 ?_ ?_
      hmark
    · rw [hm]
      exact cachedLookup_method t req cached hcl
    · rw [canStaleOnError_ext env cached.header hcc2]
      exact hso

/-- The environment for the C4 witness scenario (§8 scenario 4). -/
def envC4W : Env :=
  { parseTime := fun s => if s = "D" then some 0 else none,
    parseDur := fun s => if s = "60" then some 60000000000 else none,
    now := 5 }

/-- The C4 witness entry: `max-age=0, stale-if-error=60`, valid date, ETag. -/
def entryC4 : Response :=
  { statusCode := 200, status := "OK",
    header := [("Date", ["D"]), ("Etag", ["x"]),
               ("Cache-Control", ["max-age=0, stale-if-error=60"])],
    body := [1], contentLength := 1 }

/-- The C4 witness transport: the upstream always fails. -/
def tC4 : TransportModel :=
  { upstream := fun _ => none,
    lookup := fun k => if k = "u" then some entryC4 else none,
    markCachedResponses := false, canCache := none }

/-- The C4 witness request. -/
def reqC4W : Request := { method := "GET", url := "u", header := [], rangeOptIn := false }

/-- Witness for the amended C4: with a failing upstream and
`stale-if-error=60` within its window, the dispatch returns the cached
entry and surfaces no error. -/
theorem claim_C4_stale_if_error_witness :
    (roundTrip envC4W tC4 reqC4W).result = some entryC4 :=
  claim_C4_stale_if_error.2.1 envC4W tC4 reqC4W entryC4
    (by decide) (by decide) (fun _ => rfl) (by decide) rfl

/-- What a passed storability gate guarantees. -/
theorem canStore_spec {rq rs : CacheControl} {resp : Response}
    (h : canStore rq rs resp = true) :
    ccLookup rs "no-store" = none ∧ ccLookup rq "no-store" = none ∧
    (hGet resp.header "etag" ≠ "" ∨ hGet resp.header "last-modified" ≠ "") := by
  unfold canStore at h
  by_cases h1 : (ccLookup rs "no-store").isSome = true
  · rw [if_pos h1] at h
    exact absurd h (by decide)
  · rw [if_neg h1] at h
    by_cases h2 : (ccLookup rq "no-store").isSome = true
    · rw [if_pos h2] at h
      exact absurd h (by decide)
    · rw [if_neg h2] at h
      by_cases h3 : (hGet resp.header "etag" = "" && hGet resp.header "last-modified" = "") = true
      · rw [if_pos h3] at h
        exact absurd h (by decide)
      · refine ⟨?_, ?_, ?_⟩
        · cases ho : ccLookup rs "no-store" with
          | none => rfl
          | some v => rw [ho] at h1; exact absurd rfl h1
        · cases ho : ccLookup rq "no-store" with
          | none => rfl
          | some v => rw [ho] at h2; exact absurd rfl h2
        · simp only [Bool.and_eq_true, decide_eq_true_eq, not_and] at h3
          by_cases he : hGet resp.header "etag" = ""
          · exact Or.inr (h3 he)
          · exact Or.inl he

/-- Any response committed to the store by `finishCore` passed the
storability gate, and the bookkeeping and annotation headers added before
the write do not disturb its validators or its `Cache-Control`. -/
theorem stored_props_of_canStore {reqF : Request} {resp' : Response}
    (hcs : canStore (parseCacheControl reqF.header) (parseCacheControl resp'.header) resp'
      = true)
    {r : Response}
    (hr : r = addVariedHeaders reqF resp' ∨
      ∃ mark ric xpc f sc, r = annotate mark ric xpc f 1 sc (addVariedHeaders reqF resp')) :
    (hGet r.header "etag" ≠ "" ∨ hGet r.header "last-modified" ≠ "") ∧
    ccLookup (parseCacheControl reqF.header) "no-store" = none ∧
    ccLookup (parseCacheControl r.header) "no-store" = none := by
  obtain ⟨hnsResp, hnsReq, hval⟩ := canStore_spec hcs
  have hE : hGet (addVariedHeaders reqF resp').header "etag" = hGet resp'.header "etag" :=
    hGet_addVariedHeaders reqF resp' (by decide)
  have hL : hGet (addVariedHeaders reqF resp').header "last-modified"
      = hGet resp'.header "last-modified" :=
    hGet_addVariedHeaders reqF resp' (by decide)
  have hC : hGet (addVariedHeaders reqF resp').header "Cache-Control"
      = hGet resp'.header "Cache-Control" :=
    hGet_addVariedHeaders reqF resp' (by decide)
  rcases hr with hr | ⟨mark, ric, xpc, f, sc, hr⟩ <;> subst hr
  · refine ⟨?_, hnsReq, ?_⟩
    · rw [hE, hL]
      exact hval
    · rw [parseCacheControl_ext hC]
      exact hnsResp
  · have hE2 : hGet (annotate mark ric xpc f 1 sc (addVariedHeaders reqF resp')).header "etag"
        = hGet (addVariedHeaders reqF resp').header "etag" :=
      hGet_annotate mark ric xpc f 1 sc _ (by decide)
    have hL2 : hGet (annotate mark ric xpc f 1 sc (addVariedHeaders reqF resp')).header
          "last-modified" = hGet (addVariedHeaders reqF resp').header "last-modified" :=
      hGet_annotate mark ric xpc f 1 sc _ (by decide)
    have hC2 : hGet (annotate mark ric xpc f 1 sc (addVariedHeaders reqF resp')).header
          "Cache-Control" = hGet (addVariedHeaders reqF resp').header "Cache-Control" :=
      hGet_annotate mark ric xpc f 1 sc _ (by decide)
    refine ⟨?_, hnsReq, ?_⟩
    · rw [hE2, hL2, hE, hL]
      exact hval
    · rw [parseCacheControl_ext (hC2.trans hC)]
      exact hnsResp

/-- Any store write emitted by `finishCore` satisfies the storability
invariant: the stored response keeps a validator and neither side's
`Cache-Control` contains `no-store`. -/
theorem finishCore_stored {mark : Bool} {reqF : Request} {key : String}
    {cacheable respIsCached : Bool} {resp : Response} {f : Freshness} {sc : Int} {xpc : Nat}
    {k : String} {r : Response}
    (hmem :
      CacheOp.set k r ∈ (finishCore mark reqF key cacheable respIsCached resp f sc xpc).2 ∨
      CacheOp.deferredSet k r
        ∈ (finishCore mark reqF key cacheable respIsCached resp f sc xpc).2) :
    (hGet r.header "etag" ≠ "" ∨ hGet r.header "last-modified" ≠ "") ∧
    ccLookup (parseCacheControl reqF.header) "no-store" = none ∧
    ccLookup (parseCacheControl r.header) "no-store" = none := by
  unfold finishCore at hmem
  simp only [] at hmem
  generalize (if (sc = 1 && resp.statusCode = 304 : Bool) then strip304 resp else resp)
    = resp' at hmem
  by_cases hgate : (cacheable &&
      canStore (parseCacheControl reqF.header) (parseCacheControl resp'.header) resp') = true
  · rw [if_pos hgate] at hmem
    by_cases h304 : (sc = 1 && (addVariedHeaders reqF resp').statusCode = 304 : Bool) = true
    · rw [if_pos h304] at hmem
      simp at hmem
    · rw [if_neg h304] at hmem
      by_cases hric : ¬ respIsCached = true
      · rw [if_pos hric] at hmem
        by_cases hm : reqF.method = "GET"
        · rw [if_pos hm] at hmem
          rcases hmem with h | h
          · simp at h
          · simp at h
            exact stored_props_of_canStore (Bool.and_eq_true _ _ ▸ hgate).2
              (Or.inr ⟨_, _, _, _, _, h.2⟩)
        · rw [if_neg hm] at hmem
          rcases hmem with h | h
          · simp at h
            exact stored_props_of_canStore (Bool.and_eq_true _ _ ▸ hgate).2 (Or.inl h.2)
          · simp at h
      · rw [if_neg hric] at hmem
        simp at hmem
  · rw [if_neg hgate] at hmem
    simp at hmem

/-- Lift `finishCore_stored` through `finishDispatch`, discounting the
operations recorded earlier in the dispatch. -/
theorem finishDispatch_stored {mark : Bool} {reqF : Request} {key : String}
    {cacheable respIsCached : Bool} {resp : Response} {f : Freshness} {sc : Int} {xpc : Nat}
    {calls : List Request} {opsSoFar : List CacheOp} {k : String} {r : Response}
    (hpre : CacheOp.set k r ∉ opsSoFar ∧ CacheOp.deferredSet k r ∉ opsSoFar)
    (hmem :
      CacheOp.set k r
        ∈ (finishDispatch mark reqF key cacheable respIsCached resp f sc xpc calls opsSoFar).ops ∨
      CacheOp.deferredSet k r
        ∈ (finishDispatch mark reqF key cacheable respIsCached resp f sc xpc calls opsSoFar).ops) :
    (hGet r.header "etag" ≠ "" ∨ hGet r.header "last-modified" ≠ "") ∧
    ccLookup (parseCacheControl reqF.header) "no-store" = none ∧
    ccLookup (parseCacheControl r.header) "no-store" = none := by
  unfold finishDispatch at hmem
  simp only [List.mem_append] at hmem
  rcases hmem with (h | h) | (h | h)
  · exact absurd h hpre.1
  · exact finishCore_stored (Or.inl h)
  · exact absurd h hpre.2
  · exact finishCore_stored (Or.inr h)

/-- Any store write of `afterUpstream` satisfies the storability
invariant (stated against the request actually sent upstream). -/
theorem afterUpstream_stored {env : Env} {t : TransportModel} {req2 : Request}
    {key : String} {cached : Response} {f : Freshness} {sc : Int} {k : String} {r : Response}
    (hmem : CacheOp.set k r ∈ (afterUpstream env t req2 key cached f sc).ops ∨
      CacheOp.deferredSet k r ∈ (afterUpstream env t req2 key cached f sc).ops) :
    (hGet r.header "etag" ≠ "" ∨ hGet r.header "last-modified" ≠ "") ∧
    ccLookup (parseCacheControl req2.header) "no-store" = none ∧
    ccLookup (parseCacheControl r.header) "no-store" = none := by
  unfold afterUpstream at hmem
  cases hup : t.upstream req2 with
  | none =>
    rw [hup] at hmem
    simp only [] at hmem
    by_cases hc : ((req2.method = "GET" || req2.method = "HEAD")
        && canStaleOnError env cached.header req2.header : Bool) = true
    · rw [if_pos hc] at hmem
      simp at hmem
    · rw [if_neg hc] at hmem
      simp at hmem
  | some resp =>
    rw [hup] at hmem
    simp only [] at hmem
    by_cases h304 : ((req2.method = "GET" || req2.method = "HEAD")
        && resp.statusCode = 304 : Bool) = true
    · rw [if_pos h304] at hmem
      exact finishDispatch_stored ⟨by simp, by simp⟩ hmem
    · rw [if_neg h304] at hmem
      by_cases h5 : (resp.statusCode ≥ 500 && (req2.method = "GET" || req2.method = "HEAD")
          && canStaleOnError env cached.header req2.header : Bool) = true
      · rw [if_pos h5] at hmem
        simp at hmem
      · rw [if_neg h5] at hmem
        by_cases h200 : resp.statusCode ≠ 200
        · rw [if_pos h200] at hmem
          exact finishDispatch_stored ⟨by simp, by simp⟩ hmem
        · rw [if_neg h200] at hmem
          exact finishDispatch_stored ⟨by simp, by simp⟩ hmem

/-- C5: no dispatch ever writes a store entry whose response lacks both an
`ETag` and a `Last-Modified` header, or while either the request's or the
stored response's `Cache-Control` contains `no-store`.  This covers both
the immediate writes and the deferred body-capture writes. -/
theorem claim_C5_no_store_invariant (env : Env) (t : TransportModel) (req : Request)
    (k : String) (r : Response)
    (hmem : CacheOp.set k r ∈ (roundTrip env t req).ops ∨
      CacheOp.deferredSet k r ∈ (roundTrip env t req).ops) :
    (hGet r.header "etag" ≠ "" ∨ hGet r.header "last-modified" ≠ "") ∧
    ccLookup (parseCacheControl req.header) "no-store" = none ∧
    ccLookup (parseCacheControl r.header) "no-store" = none := by
  cases hcl : cachedLookup t req with
  | some cached =>
    by_cases hnf : varyMatches cached req = true ∧
        getFreshness env cached.header req.header = .fresh
    · have hops : (roundTrip env t req).ops = [] := by
        simp only [roundTrip, hcl]
        rw [if_pos hnf.1, if_pos hnf.2]
      rw [hops] at hmem
      simp at hmem
    · obtain ⟨req2, f, sc, heq, hm, hcc2⟩ := roundTrip_toAfterUpstream env t req cached hcl hnf
      rw [heq] at hmem
      have hp := afterUpstream_stored hmem
      refine ⟨hp.1, ?_, hp.2.2⟩
      rw [← parseCacheControl_ext hcc2]
      exact hp.2.1
  | none =>
    simp only [roundTrip, hcl] at hmem
    by_cases hoic : (ccLookup (parseCacheControl req.header) "only-if-cached").isSome = true
    · rw [if_pos hoic] at hmem
      refine finishDispatch_stored ?_ hmem
      constructor <;> (by_cases hc : effCacheable t req = true <;> simp [hc])
    · rw [if_neg hoic] at hmem
      cases hup : t.upstream req with
      | none =>
        rw [hup] at hmem
        simp only [] at hmem
        by_cases hc : effCacheable t req = true <;> simp [hc] at hmem
      | some resp =>
        rw [hup] at hmem
        simp only [] at hmem
        refine finishDispatch_stored ?_ hmem
        constructor <;> (by_cases hc : effCacheable t req = true <;> simp [hc])

/-- The upstream 200 of the C5 witness scenario. -/
def respC5 : Response :=
  { statusCode := 200, status := "OK", header := [("Etag", ["y"])],
    body := [104], contentLength := 1 }

/-- The stored response of the C5 witness scenario (the deferred write
stores the un-annotated response since marking is off). -/
def storedC5 : Response := addVariedHeaders reqC4W respC5

/-- The C5 witness transport: a miss followed by a storable 200. -/
def tC5 : TransportModel :=
  { upstream := fun _ => some respC5,
    lookup := fun _ => none,
    markCachedResponses := false, canCache := none }

/-- Witness for C5: the one (deferred) write of a concrete miss-then-200
dispatch keeps a validator and is free of `no-store` on both sides. -/
theorem claim_C5_witness :
    (hGet storedC5.header "etag" ≠ "" ∨ hGet storedC5.header "last-modified" ≠ "") ∧
    ccLookup (parseCacheControl reqC4W.header) "no-store" = none ∧
    ccLookup (parseCacheControl storedC5.header) "no-store" = none :=
  claim_C5_no_store_invariant envC4W tC5 reqC4W "u" storedC5 (Or.inr (by decide))

end Httpcache